import Mathlib

/-!
# Verification of the WSN clustering simulation engine

Shallow embedding of the core of the `info-clustring` repository
(`src/service/simulation-engine.ts`, `src/service/clustering/leach-clustering.ts`
— which also contains `KMeansClusteringAlgorithm` —, and
`src/service/environment/environment-module.ts`), together with theorems
settling the frozen claims about it.

Modelling conventions:
* JavaScript numbers are modelled as exact rationals (`ℚ`) in the engine and
  clustering code, and as reals (`ℝ`) in the environment field generator,
  whose formulas are built from `Real.sin`/`Real.cos`/`π`.
* `Math.sqrt` appears in the source only inside expressions of the form
  `Math.pow(dist, 2)` (energy model) or in comparisons/orderings of
  distances. Squaring a square root and comparing square roots are modelled
  exactly by the squared Euclidean distance `distSq`, which over the reals
  gives the same values and the same order.
* Mutation of the `sensors` array in place is modelled by explicit state
  passing; `Array.prototype.find` / mutation of the found element is
  modelled by `List.find?` / `updateFirst` on the first element with the
  matching id.
* JavaScript `Map` objects are modelled as association lists with
  set-overwrites-in-place / insert-appends semantics, or as functions
  `ℕ → Option _` where iteration order is irrelevant.
* `Array.prototype.sort` (stable in modern engines) is modelled by a stable
  insertion sort driven by the source's comparator.
-/

namespace WSN

/-- `Sensor` record from `src/service/types.ts`. -/
structure Sensor where
  id : ℕ
  x : ℚ
  y : ℚ
  energy : ℚ
  isAsleep : Bool
deriving DecidableEq, Repr

/-- `SensorData` record from `src/service/types.ts` (a reading tagged with a
sensor id). -/
structure SData where
  id : ℕ
  salinity : ℚ
  pressure : ℚ
  temperature : ℚ
  ph : ℚ
deriving DecidableEq, Repr

/-- `Cluster` record from `src/service/types.ts`; `sleepingMembers` is an
optional field. -/
structure Cluster where
  id : ℕ
  headId : ℕ
  members : List Sensor
  sleepingMembers : Option (List Sensor) := none
deriving DecidableEq, Repr

/-- The engine-relevant fields of `SimulationConfig`
(`src/service/types.ts`).  The environmental ranges live in `EnvConfig`
below, next to the environment module. -/
structure Config where
  width : ℚ
  height : ℚ
  numSensors : ℕ
  initialEnergy : ℚ
  numClusters : ℕ
  clusteringInterval : ℕ
  energyTxElec : ℚ
  energyRxElec : ℚ
  distanceFactor : ℚ
  energyToSatellite : ℚ
deriving DecidableEq, Repr

/-- `AlgorithmType` from `src/service/types.ts`. -/
inductive Alg where
  | kmeans
  | leach
  | infoKmeans
deriving DecidableEq, Repr

/-- Squared Euclidean distance between two sensors.  The source computes
`Math.sqrt(dx*dx + dy*dy)` and either squares it again
(`Math.pow(dist, 2)`, energy model) or only compares it against other
distances; both uses are modelled exactly by the square. -/
def distSq (a b : Sensor) : ℚ :=
  (a.x - b.x) ^ 2 + (a.y - b.y) ^ 2

/-- Apply `f` to the first element of the list satisfying `p`, leaving the
rest unchanged.  Models mutating the object returned by
`Array.prototype.find`. -/
def updateFirst (p : α → Bool) (f : α → α) : List α → List α
  | [] => []
  | a :: l => if p a then f a :: l else a :: updateFirst p f l

/-! ## Energy model (`calculateEnergyConsumption`,
`simulation-engine.ts` lines 473–528) -/

/-- One active member's transmit cost: `energyTxElec + distanceFactor *
dist²` where `dist` is the Euclidean distance from the member snapshot to
the head. -/
def txEnergy (cfg : Config) (member head : Sensor) : ℚ :=
  cfg.energyTxElec + cfg.distanceFactor * distSq member head

/-- The member loop of `calculateEnergyConsumption`: each member snapshot is
looked up in the live sensor array; dead or sleeping sensors are skipped,
otherwise the transmit cost is subtracted and clamped at 0. -/
def memberTxStep (cfg : Config) (head : Sensor) (sensors : List Sensor)
    (m : Sensor) : List Sensor :=
  match sensors.find? (fun s => s.id == m.id) with
  | none => sensors
  | some ms =>
    if ms.energy ≤ 0 ∨ ms.isAsleep then sensors
    else
      updateFirst (fun s => s.id == m.id)
        (fun s =>
          let e := s.energy - txEnergy cfg m head
          { s with energy := if e < 0 then 0 else e }) sensors

/-- The sleeping-member loop (`info-kmeans` only): a fixed 0.001 drain,
clamped at 0, for each sleeping member that is found and alive. -/
def sleepingStep (sensors : List Sensor) (m : Sensor) : List Sensor :=
  match sensors.find? (fun s => s.id == m.id) with
  | none => sensors
  | some ms =>
    if ms.energy ≤ 0 then sensors
    else
      updateFirst (fun s => s.id == m.id)
        (fun s =>
          let e := s.energy - 1/1000
          { s with energy := if e < 0 then 0 else e }) sensors

/-- The head's receive + uplink charge: `head.energy -= rxEnergy;
head.energy -= energyToSatellite` (no clamp yet; the clamp comes at the end
of the cluster body). -/
def headDownlinkCharge (cfg : Config) (c : Cluster) (sensors : List Sensor) :
    List Sensor :=
  let members := c.members.filter (fun m => m.id ≠ c.headId)
  updateFirst (fun s => s.id == c.headId)
    (fun s => { s with
      energy := s.energy - (members.length : ℚ) * cfg.energyRxElec - cfg.energyToSatellite })
    sensors

/-- The active-member loop over the non-head members. -/
def memberCharges (cfg : Config) (c : Cluster) (head : Sensor)
    (sensors : List Sensor) : List Sensor :=
  (c.members.filter (fun m => m.id ≠ c.headId)).foldl (memberTxStep cfg head) sensors

/-- The sleeping-member loop, entered only for `info-kmeans` when the
cluster carries a sleeping list. -/
def sleepingCharges (alg : Alg) (c : Cluster) (sensors : List Sensor) :
    List Sensor :=
  if alg = Alg.infoKmeans then
    match c.sleepingMembers with
    | some sl => sl.foldl sleepingStep sensors
    | none => sensors
  else sensors

/-- The base 0.01 idle drain over every alive, non-sleeping sensor (this
loop sits inside the per-cluster body in the source). -/
def baseDrain (sensors : List Sensor) : List Sensor :=
  sensors.map (fun s =>
    if 0 < s.energy ∧ s.isAsleep = false then
      let e := s.energy - 1/100
      { s with energy := if e < 0 then 0 else e }
    else s)

/-- The final `if (head.energy < 0) head.energy = 0` clamp. -/
def headClamp (c : Cluster) (sensors : List Sensor) : List Sensor :=
  updateFirst (fun s => s.id == c.headId)
    (fun s => if s.energy < 0 then { s with energy := 0 } else s) sensors

/-- The per-cluster body of `calculateEnergyConsumption`: skipped when the
head is missing or dead, otherwise head charge, member charges, sleeping
charges, the global base drain, and the head clamp, in source order. -/
def clusterStep (cfg : Config) (alg : Alg) (sensors : List Sensor)
    (c : Cluster) : List Sensor :=
  match sensors.find? (fun s => s.id == c.headId) with
  | none => sensors
  | some head =>
    if head.energy ≤ 0 then sensors
    else
      headClamp c (baseDrain (sleepingCharges alg c
        (memberCharges cfg c head (headDownlinkCharge cfg c sensors))))

/-- `calculateEnergyConsumption(clusters, sensors, algorithm)`: folds the
per-cluster body over the cluster list, returning the updated sensor
array. -/
def calculateEnergyConsumption (cfg : Config) (clusters : List Cluster)
    (sensors : List Sensor) (alg : Alg) : List Sensor :=
  clusters.foldl (clusterStep cfg alg) sensors

/-! ## The round loop of `runSingleAlgorithm`
(`simulation-engine.ts` lines 585–771)

The loop skeleton — alive check, break, round counter, history append,
`networkLifetime` bookkeeping — is embedded generically over the loop body;
the kmeans/leach bodies are instantiated below in `roundBody`. -/

/-- Result of one strategy run (`AlgorithmResult` plus the final mutable
engine state). -/
structure RunResult (σ : Type) (F : Type) where
  history : List F
  estimationErrors : List ℚ
  networkLifetime : ℕ
  totalRounds : ℕ
  finalState : σ
deriving Repr

/-- The `while (round < maxRounds)` loop of `runSingleAlgorithm`.  The first
argument is the number of remaining permitted rounds (`maxRounds - round`);
`lt` carries the `networkLifetime` variable (0 until set at the
all-dead break, exactly as in the source). -/
def runLoopAux (alive : σ → Bool) (body : ℕ → σ → List F → σ × F × ℚ) :
    ℕ → ℕ → σ → List F → List ℚ → ℕ → RunResult σ F
  | 0, rnd, s, hist, errs, lt => ⟨hist, errs, lt, rnd, s⟩
  | r + 1, rnd, s, hist, errs, lt =>
    if alive s then
      let b := body rnd s hist
      runLoopAux alive body r (rnd + 1) b.1 (hist ++ [b.2.1]) (errs ++ [b.2.2]) lt
    else ⟨hist, errs, if lt = 0 then rnd else lt, rnd, s⟩

/-- `runSingleAlgorithm`'s loop plus the post-loop
`if (networkLifetime === 0) networkLifetime = round` fix-up. -/
def runLoop (alive : σ → Bool) (body : ℕ → σ → List F → σ × F × ℚ)
    (maxRounds : ℕ) (init : σ) : RunResult σ F :=
  let r := runLoopAux alive body maxRounds 0 init [] [] 0
  { r with networkLifetime := if r.networkLifetime = 0 then r.totalRounds else r.networkLifetime }

/-- The state/history/error sequence obtained by running the loop body
unconditionally for `n` rounds (specification-side trajectory). -/
def traj (body : ℕ → σ → List F → σ × F × ℚ) (init : σ) : ℕ → σ × List F × List ℚ
  | 0 => (init, [], [])
  | n + 1 =>
    let t := traj body init n
    let b := body n t.1 t.2.1
    (b.1, t.2.1 ++ [b.2.1], t.2.2 ++ [b.2.2])

/-- First round index `n < maxRounds` at which no sensor is alive at the
start of round `n`, if any. -/
def deadBefore (alive : σ → Bool) (body : ℕ → σ → List F → σ × F × ℚ)
    (init : σ) (maxRounds : ℕ) : Option ℕ :=
  (List.range maxRounds).find? (fun n => !alive (traj body init n).1)

/-! ## Stable sort with a JavaScript comparator

`Array.prototype.sort` with a numeric comparator, stable (as mandated since
ES2019): an element is placed before another exactly when the comparator is
negative on the pair; ties keep the original order. -/

/-- Insert `x` (a later element) into the already sorted list: it goes
before the first `y` with `cmp x y < 0`, i.e. after every earlier element
it ties with. -/
def jsInsert (cmp : α → α → ℚ) (x : α) : List α → List α
  | [] => [x]
  | y :: t => if cmp x y < 0 then x :: y :: t else y :: jsInsert cmp x t

/-- Stable sort driven by a JavaScript comparator. -/
def jsSort (cmp : α → α → ℚ) (l : List α) : List α :=
  l.foldl (fun acc x => jsInsert cmp x acc) []

/-! ## Estimation module (`estimateSensorValueEnhanced`,
`simulation-engine.ts` lines 534–583)

The Euclidean distance (which involves `Math.sqrt`) is passed in as an
abstract function `dist`, and the environment oracle
(`environmentModule.getSensorData`, whose formulas are transcendental) as
an abstract function `oracle`; every theorem about the estimation module
holds for all instantiations. -/

/-- A reading without the sensor id (`Omit<SensorData, "id">`), as returned
by the environment oracle. -/
structure Reading4 where
  salinity : ℚ
  pressure : ℚ
  temperature : ℚ
  ph : ℚ
deriving DecidableEq, Repr

/-- `{ id, ...reading }`. -/
def mkSData (i : ℕ) (r : Reading4) : SData :=
  ⟨i, r.salinity, r.pressure, r.temperature, r.ph⟩

/-- Stand-in for the `!` non-null assertions on `sensorsData.find(...)`;
in every use the lookup is guaranteed to succeed. -/
def dummySData (i : ℕ) : SData := ⟨i, 0, 0, 0, 0⟩

/-- The target's `k` nearest other sensors: filter out the target, sort by
distance to the target (stable), take `k`.  (`.sort((a, b) =>
dist(a,target) - dist(b,target)).slice(0, k)`.) -/
def kNearest (dist : Sensor → Sensor → ℚ) (k : ℕ) (target : Sensor)
    (allSensors : List Sensor) : List Sensor :=
  (jsSort (fun a b => dist a target - dist b target)
    (allSensors.filter (fun s => s.id ≠ target.id))).take k

/-- Accumulator of the neighbor loop in `estimateSensorValueEnhanced`. -/
structure EstAcc where
  wSum : ℚ
  salinity : ℚ
  pressure : ℚ
  temperature : ℚ
  ph : ℚ
  used : ℕ
deriving DecidableEq, Repr

/-- One iteration of the neighbor loop: neighbors with a cached last-known
reading contribute weight `1/(dist+ε)`; the others are skipped. -/
def estStep (dist : Sensor → Sensor → ℚ) (eps : ℚ) (target : Sensor)
    (lastKnown : ℕ → Option SData) (acc : EstAcc) (n : Sensor) : EstAcc :=
  match lastKnown n.id with
  | some nd =>
    let w := 1 / (dist n target + eps)
    ⟨acc.wSum + w, acc.salinity + nd.salinity * w, acc.pressure + nd.pressure * w,
      acc.temperature + nd.temperature * w, acc.ph + nd.ph * w, acc.used + 1⟩
  | none => acc

/-- `estimateSensorValueEnhanced(target, roundIdx, lastKnown, allSensors)`. -/
def estimateSensorValueEnhanced (dist : Sensor → Sensor → ℚ) (eps : ℚ) (k : ℕ)
    (oracle : ℚ → ℚ → ℕ → Reading4) (target : Sensor) (roundIdx : ℕ)
    (lastKnown : ℕ → Option SData) (allSensors : List Sensor) : SData :=
  let allNeighbors := kNearest dist k target allSensors
  if allNeighbors.isEmpty then
    mkSData target.id (oracle target.x target.y roundIdx)
  else
    let acc := allNeighbors.foldl (estStep dist eps target lastKnown) ⟨0, 0, 0, 0, 0, 0⟩
    if acc.used = 0 then
      mkSData target.id (oracle target.x target.y roundIdx)
    else
      ⟨target.id, acc.salinity / acc.wSum, acc.pressure / acc.wSum,
        acc.temperature / acc.wSum, acc.ph / acc.wSum⟩

/-- Modelled from the spec: "take its k nearest sensors (by position, over
the full original layout) that have a cached last-known reading, weight
each by 1/(distance+ε), and return the weighted average per variable; if no
neighbor has cached data, fall back to querying the Environment Field
Generator directly."  Declarative counterpart of
`estimateSensorValueEnhanced`, for the refinement theorem. -/
def specIDWEstimate (dist : Sensor → Sensor → ℚ) (eps : ℚ) (k : ℕ)
    (oracle : ℚ → ℚ → ℕ → Reading4) (target : Sensor) (roundIdx : ℕ)
    (lastKnown : ℕ → Option SData) (allSensors : List Sensor) : SData :=
  let cached := (kNearest dist k target allSensors).filterMap
    (fun n => (lastKnown n.id).map (fun d => (n, d)))
  if cached.isEmpty then
    mkSData target.id (oracle target.x target.y roundIdx)
  else
    let w : Sensor × SData → ℚ := fun nd => 1 / (dist nd.1 target + eps)
    let wSum := (cached.map w).sum
    ⟨target.id,
      (cached.map (fun nd => nd.2.salinity * w nd)).sum / wSum,
      (cached.map (fun nd => nd.2.pressure * w nd)).sum / wSum,
      (cached.map (fun nd => nd.2.temperature * w nd)).sum / wSum,
      (cached.map (fun nd => nd.2.ph * w nd)).sum / wSum⟩

/-! ## Rotating-head (LEACH) clustering
(`src/service/clustering/leach-clustering.ts`, `LeachClusteringAlgorithm`)

The algorithm instance keeps a mutable `nodes: Map<number, LeachNode>`
across calls; it is modelled as an association list threaded through
`cluster`.  The `node.sensor` field of the source always holds the sensor
passed in the same call (set by `updateNodeTracking` immediately before
use), so it is not stored; `calcProb` receives the sensor's energy
directly. -/

/-- Per-sensor cross-round tracking state (`LeachNode` without the
redundant `sensor` field). -/
structure LeachNode where
  wasClusterHead : Bool
  lastClusterHeadRound : ℤ
deriving DecidableEq, Repr

/-- The `nodes` map, as an association list in `Map` insertion order. -/
abbrev LeachState := List (ℕ × LeachNode)

/-- `Map.get`. -/
def lookupNode (st : LeachState) (i : ℕ) : Option LeachNode :=
  (st.find? (fun p => p.1 == i)).map (·.2)

/-- `Map.set`: overwrite in place if present, else append. -/
def setNode (st : LeachState) (i : ℕ) (n : LeachNode) : LeachState :=
  if (st.find? (fun p => p.1 == i)).isSome then
    updateFirst (fun p => p.1 == i) (fun p => (p.1, n)) st
  else st ++ [(i, n)]

/-- `updateNodeTracking(sensors, currentRound)`: register fresh nodes for
unseen sensor ids (existing nodes only get their `sensor` pointer
refreshed, which the model does not store), then delete nodes whose id is
not among the given (alive) sensors. -/
def updateNodeTracking (st : LeachState) (sensors : List Sensor) : LeachState :=
  let st1 := sensors.foldl (fun st s =>
    if (lookupNode st s.id).isSome then st
    else st ++ [(s.id, (⟨false, -1⟩ : LeachNode))]) st
  st1.filter (fun p => sensors.any (fun s => s.id == p.1))

/-- `updateClusterHeadProbability`: `min(1, desired / total)`. -/
def leachK (desired total : ℕ) : ℚ :=
  min 1 ((desired : ℚ) / (total : ℚ))

/-- `roundsPerCycle = Math.ceil(1 / probability)`. -/
def leachCycle (k : ℚ) : ℕ :=
  (Int.toNat ⌈1 / k⌉)

/-- `calculateClusterHeadProbability(node, currentRound)`; returns the
probability together with the (possibly reset) node, since the source
mutates the node in place when a new cycle starts.  A node that served as
head within the last `roundsPerCycle` rounds gets probability 0 before the
reset is even considered. -/
def calcProb (node : LeachNode) (energy : ℚ) (rnd : ℕ) (k : ℚ) (cycle : ℕ) :
    ℚ × LeachNode :=
  let cycleRound := rnd % cycle
  if node.wasClusterHead ∧ (rnd : ℤ) - (cycle : ℤ) ≤ node.lastClusterHeadRound then
    (0, node)
  else
    let node' : LeachNode := if cycleRound = 0 then ⟨false, -1⟩ else node
    let baseProb := k / (1 - k * (cycleRound : ℚ))
    let energyFactor := min 2 (energy / 50)
    (min 1 (baseProb * energyFactor), node')

/-- The candidate loop of `selectClusterHeads`: compute each sensor's
probability in order, threading the node map (the in-place cycle resets). -/
def leachCandidates (st : LeachState) (sensors : List Sensor) (rnd : ℕ)
    (k : ℚ) (cycle : ℕ) : List (Sensor × ℚ) × LeachState :=
  sensors.foldl (fun acc s =>
    let node := (lookupNode acc.2 s.id).getD ⟨false, -1⟩
    let pr := calcProb node s.energy rnd k cycle
    (acc.1 ++ [(s, pr.1)], setNode acc.2 s.id pr.2)) ([], st)

/-- The candidate comparator: probabilities within 0.001 tie-break by
higher energy, otherwise higher probability first. -/
def leachCmp (a b : Sensor × ℚ) : ℚ :=
  if |a.2 - b.2| < 1/1000 then b.1.energy - a.1.energy else b.2 - a.2

/-- The threshold-based selection: walk the top `numToSelect` sorted
candidates and take those with positive probability, marking each selected
node as head for this round. -/
def leachPhase1 (st : LeachState) (sorted : List (Sensor × ℚ))
    (numToSelect : ℕ) (rnd : ℕ) : List Sensor × LeachState :=
  (sorted.take numToSelect).foldl (fun acc c =>
    if 0 < c.2 then
      (acc.1 ++ [c.1], setNode acc.2 c.1.id ⟨true, (rnd : ℤ)⟩)
    else acc) ([], st)

/-- `remaining.reduce((max, sensor) => sensor.energy > max.energy ? sensor
: max)`: the first sensor of maximal energy. -/
def leachArgmaxEnergy (s₀ : Sensor) (rest : List Sensor) : Sensor :=
  rest.foldl (fun m s => if m.energy < s.energy then s else m) s₀

/-- The insufficient-heads fallback `while` loop: as long as fewer heads
than desired (and than sensors) exist, force the top-energy remaining
sensor into headship, marking its node.  Each iteration adds a head, so
`desired` steps of fuel suffice. -/
def leachFallback (sensors : List Sensor) (desired : ℕ) (rnd : ℕ) :
    ℕ → List Sensor × LeachState → List Sensor × LeachState
  | 0, acc => acc
  | fuel + 1, (heads, st) =>
    if heads.length < desired ∧ heads.length < sensors.length then
      match sensors.filter (fun s => ¬ heads.any (fun h => h.id == s.id)) with
      | [] => (heads, st)
      | r :: rest =>
        let next := leachArgmaxEnergy r rest
        leachFallback sensors desired rnd fuel
          (heads ++ [next], setNode st next.id ⟨true, (rnd : ℤ)⟩)
    else (heads, st)

/-- `selectClusterHeads(sensors, currentRound, desiredCount)`. -/
def selectClusterHeads (st : LeachState) (sensors : List Sensor) (rnd : ℕ)
    (desired : ℕ) (k : ℚ) (cycle : ℕ) : List Sensor × LeachState :=
  let cs := leachCandidates st sensors rnd k cycle
  let sorted := jsSort leachCmp cs.1
  let numToSelect := min desired cs.1.length
  let p1 := leachPhase1 cs.2 sorted numToSelect rnd
  leachFallback sensors desired rnd desired p1

/-- Index of the nearest head by Euclidean distance (strict improvement,
first wins ties; compared on squared distances, which gives the same
order). -/
def nearestHeadIdx (heads : List Sensor) (s : Sensor) : ℕ :=
  (heads.enum.foldl (fun acc ic =>
    let d := distSq s ic.2
    match acc.2 with
    | none => (ic.1, some d)
    | some md => if d < md then (ic.1, some d) else acc)
    ((0 : ℕ), (none : Option ℚ))).1

/-- Replace the element at index `i` (no-op when out of range), modelling
`clusters[idx].members.push(...)`. -/
def updateAt (f : α → α) : ℕ → List α → List α
  | _, [] => []
  | 0, a :: t => f a :: t
  | n + 1, a :: t => a :: updateAt f n t

/-- `formClusters(allSensors, clusterHeads)`: one cluster per head (the head
is its first member), every non-head joins the nearest head, empty clusters
are dropped. -/
def formClusters (allSensors : List Sensor) (heads : List Sensor) : List Cluster :=
  let base := heads.enum.map (fun ic => (⟨ic.1, ic.2.id, [ic.2], none⟩ : Cluster))
  let headIds := heads.map (·.id)
  let nonHeads := allSensors.filter (fun s => ¬ headIds.contains s.id)
  let filled := nonHeads.foldl (fun cls s =>
    updateAt (fun c => { c with members := c.members ++ [s] }) (nearestHeadIdx heads s) cls)
    base
  filled.filter (fun c => ¬ c.members.isEmpty)

/-- `LeachClusteringAlgorithm.cluster(sensors, config, round)`, returning
the clusters together with the updated persistent node map. -/
def leachCluster (st : LeachState) (sensors : List Sensor) (cfg : Config)
    (rnd : ℕ) : List Cluster × LeachState :=
  let alive := sensors.filter (fun s => 0 < s.energy)
  if h : alive = [] then ([], st)
  else
    let st1 := updateNodeTracking st alive
    let desired := min cfg.numClusters alive.length
    let k := leachK desired alive.length
    let cycle := leachCycle k
    let sel := selectClusterHeads st1 alive rnd desired k cycle
    let heads :=
      if sel.1.isEmpty then [leachArgmaxEnergy (alive.head h) alive.tail]
      else sel.1
    (formClusters alive heads, sel.2)

/-! ## Centroid-based (K-Means) clustering
(`KMeansClusteringAlgorithm`, same file as the LEACH variant) -/

/-- A centroid (not itself a sensor). -/
structure Centroid where
  x : ℚ
  y : ℚ
deriving DecidableEq, Repr

/-- Squared Euclidean distance from a sensor to a centroid (the source
compares plain distances; comparisons are order-equivalent). -/
def scDistSq (s : Sensor) (c : Centroid) : ℚ :=
  (s.x - c.x) ^ 2 + (s.y - c.y) ^ 2

/-- Squared Euclidean distance between centroids; the convergence check
`distance > threshold` becomes `distSq > threshold²` (threshold 1.0). -/
def ccDistSq (a b : Centroid) : ℚ :=
  (a.x - b.x) ^ 2 + (a.y - b.y) ^ 2

/-- `Math.ceil(Math.sqrt(k))` for a natural `k`. -/
def natCeilSqrt (k : ℕ) : ℕ :=
  if Nat.sqrt k * Nat.sqrt k = k then Nat.sqrt k else Nat.sqrt k + 1

/-- `initializeCentroids`: deterministic grid seeding; rows/columns of the
smallest grid fitting `k` points, row-major, stopping after `k`. -/
def initializeCentroids (k : ℕ) (cfg : Config) : List Centroid :=
  let gridCols := natCeilSqrt k
  let gridRows := (k + gridCols - 1) / gridCols
  let stepX := cfg.width / ((gridCols : ℚ) + 1)
  let stepY := cfg.height / ((gridRows : ℚ) + 1)
  ((List.range gridRows).flatMap (fun (row : ℕ) =>
    (List.range gridCols).map (fun (col : ℕ) =>
      (⟨((col : ℚ) + 1) * stepX, ((row : ℚ) + 1) * stepY⟩ : Centroid)))).take k

/-- Index of the nearest centroid (`minDistance = Infinity; nearest = 0`,
strict improvement, first wins ties). -/
def nearestCentroidIdx (s : Sensor) (centroids : List Centroid) : ℕ :=
  (centroids.enum.foldl (fun acc ic =>
    let d := scDistSq s ic.2
    match acc.2 with
    | none => (ic.1, some d)
    | some md => if d < md then (ic.1, some d) else acc)
    ((0 : ℕ), (none : Option ℚ))).1

/-- `assignSensorsToCentroids`. -/
def assignSensorsToCentroids (sensors : List Sensor) (centroids : List Centroid) :
    List ℕ :=
  sensors.map (fun s => nearestCentroidIdx s centroids)

/-- `updateCentroids`: mean position of the sensors assigned to each of the
`k` clusters; an empty cluster gets the placeholder `(0, 0)`. -/
def updateCentroids (sensors : List Sensor) (assignments : List ℕ) (k : ℕ) :
    List Centroid :=
  (List.range k).map (fun i =>
    let cs := ((sensors.zip assignments).filter (fun sa => sa.2 = i)).map (·.1)
    if cs.isEmpty then ⟨0, 0⟩
    else ⟨(cs.map (·.x)).sum / (cs.length : ℚ), (cs.map (·.y)).sum / (cs.length : ℚ)⟩)

/-- `hasConverged`: every centroid moved by at most the convergence
threshold 1.0. -/
def hasConverged (old new : List Centroid) : Bool :=
  (old.zip new).all (fun p => ¬ 1 < ccDistSq p.1 p.2)

/-- Lloyd's iteration (`while (!converged && iteration < maxIterations)`,
`maxIterations = 100`), carrying the current assignments and centroids. -/
def kmeansLoop (sensors : List Sensor) (k : ℕ) :
    ℕ → List Centroid → List ℕ → List ℕ × List Centroid
  | 0, cents, assigns => (assigns, cents)
  | fuel + 1, cents, _assigns =>
    let na := assignSensorsToCentroids sensors cents
    let nc := updateCentroids sensors na k
    if hasConverged cents nc then (na, nc)
    else kmeansLoop sensors k fuel nc na

/-- `createClusters`: for every non-empty assignment class, the member
nearest to the final centroid becomes head. -/
def createClusters (sensors : List Sensor) (assignments : List ℕ)
    (centroids : List Centroid) (k : ℕ) : List Cluster :=
  (List.range k).filterMap (fun i =>
    match ((sensors.zip assignments).filter (fun sa => sa.2 = i)).map (·.1) with
    | [] => none
    | m :: ms =>
      let cent := centroids.getD i ⟨0, 0⟩
      let headId := ((m :: ms).foldl (fun acc s =>
        let d := scDistSq s cent
        match acc.2 with
        | none => (s.id, some d)
        | some md => if d < md then (s.id, some d) else acc)
        (m.id, (none : Option ℚ))).1
      some ⟨i, headId, m :: ms, none⟩)

/-- `KMeansClusteringAlgorithm.cluster(sensors, config)`. -/
def kmeansCluster (sensors : List Sensor) (cfg : Config) : List Cluster :=
  let alive := sensors.filter (fun s => 0 < s.energy)
  if h : alive = [] then []
  else
    let k := min cfg.numClusters alive.length
    if k = 0 then []
    else if k = 1 ∨ alive.length = 1 then
      [⟨0, (alive.head h).id, alive, none⟩]
    else
      let cents0 := initializeCentroids k cfg
      let r := kmeansLoop alive k 100 cents0 (List.replicate alive.length 0)
      createClusters alive r.1 r.2 k

/-! ## The per-round body of `runSingleAlgorithm` and the engine state

Only the `kmeans` and `leach` strategies are embedded (the
`info-kmeans-clustering.ts` source is not part of the repository snapshot);
every theorem quantifying over strategies at the loop level does so over an
arbitrary body. -/

/-- One frame of history (`HistoryItem`). -/
structure Frame where
  clusters : List Cluster
  sensorsData : List SData
  sleepingNodes : Option (List ℕ)
deriving DecidableEq, Repr

/-- The two strategies whose clustering code is in the repository
snapshot. -/
inductive Alg2 where
  | kmeans
  | leach
deriving DecidableEq, Repr

/-- Embed into the full `AlgorithmType`. -/
def Alg2.toAlg : Alg2 → Alg
  | .kmeans => Alg.kmeans
  | .leach => Alg.leach

/-- The mutable state a single strategy run threads from round to round:
the strategy's working sensor copy, the `lastClusteringRound` marker, the
last-known-reading cache, and the leach algorithm instance's persistent
node map (shared engine state, never cleared between runs). -/
structure EngState where
  sensors : List Sensor
  lastClusteringRound : ℤ
  lastKnown : ℕ → Option SData
  leachNodes : LeachState

/-- The carry-forward branch (no reclustering this round): refresh each
member from the current sensor array, drop dead members, drop clusters
whose head died. -/
def carryForward (sensors : List Sensor) (prev : Frame) : List Cluster :=
  (prev.clusters.map (fun c =>
    { c with
      members := (c.members.map (fun m =>
        (sensors.find? (fun s => s.id == m.id)).getD m)).filter (fun m => 0 < m.energy),
      sleepingMembers := c.sleepingMembers.map (fun l =>
        (l.map (fun m => (sensors.find? (fun s => s.id == m.id)).getD m)).filter
          (fun m => 0 < m.energy)) })).filter
    (fun c => ((sensors.find? (fun s => s.id == c.headId)).map
      (fun s => decide (0 < s.energy))).getD false)

/-- The per-member snapshots stored in a `HistoryItem`: positions from the
cluster data, energy and sleep flag looked up in the post-energy sensor
array (`?? 0` / `?? false`). -/
def snapshotClusters (clusters : List Cluster) (sensors : List Sensor) :
    List Cluster :=
  clusters.map (fun c =>
    { c with
      members := c.members.map (fun m =>
        ⟨m.id, m.x, m.y,
          ((sensors.find? (fun s => s.id == m.id)).map (·.energy)).getD 0,
          ((sensors.find? (fun s => s.id == m.id)).map (·.isAsleep)).getD false⟩),
      sleepingMembers := c.sleepingMembers.map (fun l => l.map (fun m =>
        ⟨m.id, m.x, m.y,
          ((sensors.find? (fun s => s.id == m.id)).map (·.energy)).getD 0,
          true⟩)) })

/-- The body of one iteration of the `while` loop in `runSingleAlgorithm`:
readings, recluster-or-carry-forward, energy application, last-known cache
update, estimation error, history frame. -/
def roundBody (alg : Alg2) (cfg : Config) (oracle : ℚ → ℚ → ℕ → Reading4)
    (dist : Sensor → Sensor → ℚ) (eps : ℚ) (estK : ℕ)
    (origSensors : List Sensor) (rnd : ℕ) (st : EngState) (hist : List Frame) :
    EngState × Frame × ℚ :=
  let sensorsData := st.sensors.map (fun s => mkSData s.id (oracle s.x s.y rnd))
  let should := (cfg.clusteringInterval : ℤ) ≤ (rnd : ℤ) - st.lastClusteringRound ∨
    st.lastClusteringRound = -1
  let clustersNew : List Cluster :=
    if should then
      match alg with
      | .kmeans => kmeansCluster st.sensors cfg
      | .leach =>
        (leachCluster st.leachNodes st.sensors cfg (rnd / cfg.clusteringInterval)).1
    else
      match hist.getLast? with
      | none => []
      | some prev => carryForward st.sensors prev
  let nodes' : LeachState :=
    match alg with
    | .kmeans => st.leachNodes
    | .leach =>
      if should then
        (leachCluster st.leachNodes st.sensors cfg (rnd / cfg.clusteringInterval)).2
      else st.leachNodes
  let lcr' := if should then (rnd : ℤ) else st.lastClusteringRound
  let sensors' := calculateEnergyConsumption cfg clustersNew st.sensors alg.toAlg
  let lk' := sensors'.foldl (fun lk s =>
    if 0 < s.energy ∧ s.isAsleep = false then
      let truth := (sensorsData.find? (fun d => d.id == s.id)).getD (dummySData s.id)
      fun n => if n = s.id then some truth else lk n
    else lk) st.lastKnown
  let mae := sensors'.foldl (fun (acc : ℚ × ℕ) s =>
    if s.energy ≤ 0 ∨ s.isAsleep then
      let truth := (sensorsData.find? (fun d => d.id == s.id)).getD (dummySData s.id)
      let est := estimateSensorValueEnhanced dist eps estK oracle s rnd lk' origSensors
      (acc.1 + |est.salinity - truth.salinity| + |est.pressure - truth.pressure| +
        |est.temperature - truth.temperature| + |est.ph - truth.ph|, acc.2 + 4)
    else acc) (0, 0)
  let err := if mae.2 = 0 then 0 else mae.1 / (mae.2 : ℚ)
  let sleeping := (sensors'.filter (fun s => s.isAsleep ∧ 0 < s.energy)).map (·.id)
  let frame : Frame := ⟨snapshotClusters clustersNew sensors', sensorsData,
    if sleeping.isEmpty then none else some sleeping⟩
  (⟨sensors', lcr', lk', nodes'⟩, frame, err)

/-- `runSingleAlgorithm(algorithm, maxRounds)` for the two embedded
strategies: deep-copy the pristine layout (identity in the pure model) and
run the loop.  `nodes` is the persistent state of the engine's single
`LeachClusteringAlgorithm` instance, which the source never clears. -/
def engAlive (st : EngState) : Bool :=
  st.sensors.any (fun s => decide (0 < s.energy))

def engineRunSingle (alg : Alg2) (cfg : Config) (oracle : ℚ → ℚ → ℕ → Reading4)
    (dist : Sensor → Sensor → ℚ) (eps : ℚ) (estK : ℕ)
    (pristine : List Sensor) (nodes : LeachState) (maxRounds : ℕ) :
    RunResult EngState Frame :=
  runLoop engAlive
    (roundBody alg cfg oracle dist eps estK pristine)
    maxRounds ⟨pristine, -1, fun _ => none, nodes⟩

/-! ## Error-series extension (`calculateExtendedErrors`,
`simulation-engine.ts` lines 773–833) -/

/-- `AlgorithmResult` for one strategy. -/
structure AlgoResult where
  history : List Frame
  networkLifetime : ℕ
  totalRounds : ℕ
  estimationErrors : List ℚ
deriving DecidableEq, Repr

/-- The rebuild of the last-known cache from the first `totalRounds` frames
of a finished run: a reading counts if its sensor appears among the frame's
cluster members (active or sleeping) alive and awake. -/
def rebuildLastKnown (frames : List Frame) : ℕ → Option SData :=
  frames.foldl (fun lk f =>
    f.sensorsData.foldl (fun lk d =>
      let allMembers := f.clusters.flatMap (fun c => c.members ++ c.sleepingMembers.getD [])
      match allMembers.find? (fun m => m.id == d.id) with
      | some s =>
        if 0 < s.energy ∧ s.isAsleep = false then
          fun n => if n = d.id then some d else lk n
        else lk
      | none => lk) lk) (fun _ => none)

/-- Error of one extension round: every sensor of the original layout is
treated as missing and reconstructed from the frozen cache. -/
def extRoundError (oracle : ℚ → ℚ → ℕ → Reading4) (dist : Sensor → Sensor → ℚ)
    (eps : ℚ) (estK : ℕ) (origSensors : List Sensor) (lk : ℕ → Option SData)
    (rnd : ℕ) : ℚ :=
  let sensorsData := origSensors.map (fun s => mkSData s.id (oracle s.x s.y rnd))
  let acc := origSensors.foldl (fun (acc : ℚ × ℕ) s =>
    let truth := (sensorsData.find? (fun d => d.id == s.id)).getD (dummySData s.id)
    let est := estimateSensorValueEnhanced dist eps estK oracle s rnd lk origSensors
    (acc.1 + |est.salinity - truth.salinity| + |est.pressure - truth.pressure| +
      |est.temperature - truth.temperature| + |est.ph - truth.ph|, acc.2 + 4))
    (0, 0)
  if acc.2 = 0 then 0 else acc.1 / (acc.2 : ℚ)

/-- The per-strategy branch of `calculateExtendedErrors`: strategies that
ended before `maxRounds` get error entries appended for the missing rounds
and their `totalRounds` bumped; longer strategies are untouched. -/
def extendOne (oracle : ℚ → ℚ → ℕ → Reading4) (dist : Sensor → Sensor → ℚ)
    (eps : ℚ) (estK : ℕ) (origSensors : List Sensor) (maxRounds : ℕ)
    (r : AlgoResult) : AlgoResult :=
  if r.totalRounds < maxRounds then
    let lk := rebuildLastKnown (r.history.take r.totalRounds)
    let ext := (List.range' r.totalRounds (maxRounds - r.totalRounds)).map
      (extRoundError oracle dist eps estK origSensors lk)
    { r with estimationErrors := r.estimationErrors ++ ext, totalRounds := maxRounds }
  else r

/-- `calculateExtendedErrors(results, maxRounds)` over the three
strategy results. -/
def calculateExtendedErrors (oracle : ℚ → ℚ → ℕ → Reading4)
    (dist : Sensor → Sensor → ℚ) (eps : ℚ) (estK : ℕ)
    (origSensors : List Sensor) (rk rl ri : AlgoResult) (maxRounds : ℕ) :
    AlgoResult × AlgoResult × AlgoResult :=
  (extendOne oracle dist eps estK origSensors maxRounds rk,
   extendOne oracle dist eps estK origSensors maxRounds rl,
   extendOne oracle dist eps estK origSensors maxRounds ri)

/-- `Math.max` of the three achieved round counts, as computed in
`runSimulation`. -/
def maxAchievedRounds (rk rl ri : AlgoResult) : ℕ :=
  max (max rk.totalRounds rl.totalRounds) ri.totalRounds

/-! ## Environment field generator
(`src/service/environment/environment-module.ts`)

The formulas are transcendental (`Math.sin`, `Math.cos`, `Math.PI`), so
this part of the embedding lives over `ℝ`.  `toFixed(2)` followed by
`parseFloat` is modelled as exact decimal rounding to the nearest
hundredth. -/

/-- The environmental range part of `SimulationConfig`, over `ℝ`. -/
structure EnvConfig where
  width : ℝ
  height : ℝ
  minSalinity : ℝ
  maxSalinity : ℝ
  minPressure : ℝ
  maxPressure : ℝ
  minTemperature : ℝ
  maxTemperature : ℝ
  minPH : ℝ
  maxPH : ℝ

/-- One point of the environment field. -/
structure EnvPoint where
  salinity : ℝ
  pressure : ℝ
  temperature : ℝ
  ph : ℝ

/-- `lerp(a, b, t)` with `t` clamped into `[0, 1]`. -/
noncomputable def lerpR (a b t : ℝ) : ℝ :=
  a + (b - a) * max 0 (min 1 t)

/-- `clamp(value, min, max) = Math.max(min, Math.min(max, value))`. -/
noncomputable def clampR (v lo hi : ℝ) : ℝ :=
  max lo (min hi v)

/-- `parseFloat(v.toFixed(2))`: round to the nearest hundredth. -/
noncomputable def round2 (v : ℝ) : ℝ :=
  ((round (v * 100) : ℤ) : ℝ) / 100

/-- `generateBaseEnvironmentPoint(x, y)`. -/
noncomputable def generateBaseEnvironmentPoint (cfg : EnvConfig) (x y : ℝ) :
    EnvPoint :=
  let normX := x / cfg.width
  let normY := y / cfg.height
  let depth := normY
  let baseSalinity := lerpR cfg.minSalinity cfg.maxSalinity
    (0.3 + 0.4 * Real.sin (normX * Real.pi * 2) + 0.3 * depth)
  let basePressure := lerpR cfg.minPressure cfg.maxPressure
    (0.2 + 0.8 * depth + 0.1 * Real.cos (normX * Real.pi * 3))
  let baseTemperature := lerpR cfg.minTemperature cfg.maxTemperature
    (0.8 - 0.6 * depth + 0.2 * Real.sin (normX * Real.pi * 4))
  let basePH := lerpR cfg.minPH cfg.maxPH
    (0.5 + 0.3 * Real.cos (normX * Real.pi * 2) - 0.2 * depth)
  ⟨clampR baseSalinity cfg.minSalinity cfg.maxSalinity,
   clampR basePressure cfg.minPressure cfg.maxPressure,
   clampR baseTemperature cfg.minTemperature cfg.maxTemperature,
   clampR basePH cfg.minPH cfg.maxPH⟩

/-- The grid built by `initializeEnvironment`: keys `"i_j"` for
`i, j ∈ 0..20`, cell `(i, j)` holding the base point at
`(i·width/20, j·height/20)`. -/
noncomputable def environmentState (cfg : EnvConfig) (i j : ℤ) : Option EnvPoint :=
  if 0 ≤ i ∧ i ≤ 20 ∧ 0 ≤ j ∧ j ≤ 20 then
    some (generateBaseEnvironmentPoint cfg ((i : ℝ) * (cfg.width / 20))
      ((j : ℝ) * (cfg.height / 20)))
  else none

/-- `getInterpolatedEnvironmentPoint(x, y)`: nearest-cell lookup by
flooring, falling back to a freshly generated base point on a miss. -/
noncomputable def getInterpolatedEnvironmentPoint (cfg : EnvConfig) (x y : ℝ) :
    EnvPoint :=
  let gridX := ⌊x / (cfg.width / 20)⌋
  let gridY := ⌊y / (cfg.height / 20)⌋
  match environmentState cfg gridX gridY with
  | some p => p
  | none => generateBaseEnvironmentPoint cfg x y

/-- `getTemporalVariation(x, y, round)`. -/
noncomputable def getTemporalVariation (cfg : EnvConfig) (x y : ℝ) (rnd : ℕ) :
    EnvPoint :=
  let time := (rnd : ℝ) * 0.01
  let normX := x / cfg.width
  let normY := y / cfg.height
  let tidalCycle := Real.sin (time * 2 * Real.pi) * 0.5
  let seasonalCycle := Real.cos (time * 0.1 * Real.pi) * 0.3
  let salinityRange := (cfg.maxSalinity - cfg.minSalinity) * 0.05
  let pressureRange := (cfg.maxPressure - cfg.minPressure) * 0.03
  let temperatureRange := (cfg.maxTemperature - cfg.minTemperature) * 0.04
  let phRange := (cfg.maxPH - cfg.minPH) * 0.02
  ⟨salinityRange * (tidalCycle + seasonalCycle * normY),
   pressureRange * (tidalCycle * 1.5 + seasonalCycle * 0.5),
   temperatureRange * (seasonalCycle + tidalCycle * 0.3),
   phRange * (seasonalCycle * 0.7 + tidalCycle * normX)⟩

/-- `NoiseGenerator.getNoise(x, y, t)` for parameters
`(frequency, amplitude, seed)`. -/
noncomputable def noiseGenVal (freq amp seed x y t : ℝ) : ℝ :=
  Real.sin (x * freq + seed) * Real.cos (y * freq + seed * 1.5) *
    Real.sin (t * freq * 0.1 + seed * 2) * amp

/-- `getNoise(x, y, round)`: the three fixed generators, per-variable
mixing factors, scaled by small fractions of each range. -/
noncomputable def getNoise (cfg : EnvConfig) (x y : ℝ) (rnd : ℕ) : EnvPoint :=
  let n1 := noiseGenVal 0.01 1 1234 x y (rnd : ℝ)
  let n2 := noiseGenVal 0.05 0.5 5678 x y (rnd : ℝ)
  let n3 := noiseGenVal 0.1 0.25 9012 x y (rnd : ℝ)
  let tS := n1 * 0.5 + n2 * 0.5 + n3 * 0.5
  let tP := n1 * 0.3 + n2 * 0.3 + n3 * 0.3
  let tT := n1 * 0.4 + n2 * 0.4 + n3 * 0.4
  let tPh := n1 * 0.2 + n2 * 0.2 + n3 * 0.2
  let salinityRange := (cfg.maxSalinity - cfg.minSalinity) * 0.02
  let pressureRange := (cfg.maxPressure - cfg.minPressure) * 0.01
  let temperatureRange := (cfg.maxTemperature - cfg.minTemperature) * 0.02
  let phRange := (cfg.maxPH - cfg.minPH) * 0.01
  ⟨tS * salinityRange, tP * pressureRange, tT * temperatureRange, tPh * phRange⟩

/-- The clamped (pre-rounding) values computed by `getSensorData`. -/
noncomputable def getSensorDataRaw (cfg : EnvConfig) (x y : ℝ) (rnd : ℕ) :
    EnvPoint :=
  let basePoint := getInterpolatedEnvironmentPoint cfg x y
  let tv := getTemporalVariation cfg x y rnd
  let ns := getNoise cfg x y rnd
  ⟨clampR (basePoint.salinity + tv.salinity + ns.salinity) cfg.minSalinity cfg.maxSalinity,
   clampR (basePoint.pressure + tv.pressure + ns.pressure) cfg.minPressure cfg.maxPressure,
   clampR (basePoint.temperature + tv.temperature + ns.temperature)
     cfg.minTemperature cfg.maxTemperature,
   clampR (basePoint.ph + tv.ph + ns.ph) cfg.minPH cfg.maxPH⟩

/-- `EnvironmentModule.getSensorData(x, y, round)`: clamp, then quantize
each variable to two decimals. -/
noncomputable def envGetSensorData (cfg : EnvConfig) (x y : ℝ) (rnd : ℕ) :
    EnvPoint :=
  let r := getSensorDataRaw cfg x y rnd
  ⟨round2 r.salinity, round2 r.pressure, round2 r.temperature, round2 r.ph⟩

/-! ## Concrete instances used in counterexamples and witnesses -/

/-- A config with all four energy coefficients zero, isolating the
hard-coded 0.01 idle drain. -/
def cfgZero : Config :=
  { width := 100, height := 100, numSensors := 3, initialEnergy := 10,
    numClusters := 2, clusteringInterval := 1, energyTxElec := 0,
    energyRxElec := 0, distanceFactor := 0, energyToSatellite := 0 }

/-- Three alive, awake sensors on a line. -/
def sensors3 : List Sensor :=
  [⟨0, 0, 0, 10, false⟩, ⟨1, 10, 0, 10, false⟩, ⟨2, 20, 0, 10, false⟩]

/-- Two singleton clusters, each led by its own alive head; sensor 2
belongs to neither. -/
def twoClusters : List Cluster :=
  [⟨0, 0, [⟨0, 0, 0, 10, false⟩], none⟩, ⟨1, 1, [⟨1, 10, 0, 10, false⟩], none⟩]

/-- Three full-energy sensors for the LEACH scenarios. -/
def leach3 : List Sensor :=
  [⟨0, 0, 0, 100, false⟩, ⟨1, 10, 0, 100, false⟩, ⟨2, 20, 0, 100, false⟩]

/-- A constant environment oracle (the engine-level claims hold for every
oracle; counterexamples instantiate it concretely). -/
def constOracle : ℚ → ℚ → ℕ → Reading4 := fun _ _ _ => ⟨1, 1, 1, 1⟩

/-- The zero-coefficient config with two desired clusters, used by the
LEACH scenarios. -/
def leachCfg : Config :=
  { cfgZero with numClusters := 2 }

/-- A strategy result that ended immediately. -/
def algResA : AlgoResult := ⟨[], 0, 0, []⟩

/-- A strategy result that ran two rounds with two recorded errors. -/
def algResB : AlgoResult := ⟨[], 2, 2, [0, 0]⟩

/-- Environment config whose pressure range `[0, 6.999]` has an upper bound
that is not a multiple of 0.01. -/
noncomputable def envCfgCex : EnvConfig :=
  { width := 100, height := 100, minSalinity := 0, maxSalinity := 1,
    minPressure := 0, maxPressure := 6999/1000, minTemperature := 0,
    maxTemperature := 1, minPH := 0, maxPH := 1 }

/-- Environment config with all bounds multiples of 0.01 (the default
config uses integers), for the amended in-range witness. -/
noncomputable def envCfgW : EnvConfig :=
  { width := 1000, height := 500, minSalinity := 30, maxSalinity := 40,
    minPressure := 1000, maxPressure := 1500, minTemperature := 15,
    maxTemperature := 35, minPH := 7, maxPH := 9 }

/-- Pointwise relation between a sensor array and its updated version:
same length, each sensor keeps id, position and sleep flag, and its energy
either is untouched or ends up in `[0, old energy]`. -/
def Decr (old new : List Sensor) : Prop :=
  new.length = old.length ∧
  ∀ (i : ℕ) (h1 : i < old.length) (h2 : i < new.length),
    new[i].id = old[i].id ∧ new[i].x = old[i].x ∧ new[i].y = old[i].y ∧
    new[i].isAsleep = old[i].isAsleep ∧
    (new[i] = old[i] ∨ (0 ≤ new[i].energy ∧ new[i].energy ≤ old[i].energy))
end WSN

/-! # Theorems -/

namespace WSN

/-! ## Generic list lemmas -/

theorem updateFirst_length (p : α → Bool) (f : α → α) :
    ∀ l : List α, (updateFirst p f l).length = l.length := by
  intro l
  induction l with
  | nil => rfl
  | cons a t ih => by_cases h : p a <;> simp [updateFirst, h, ih]

theorem updateFirst_getElem? (p : α → Bool) (f : α → α) :
    ∀ (l : List α) (i : ℕ),
      (updateFirst p f l)[i]? = if l.findIdx p = i then (l[i]?).map f else l[i]? := by
  intro l
  induction l with
  | nil => intro i; simp [updateFirst]
  | cons a t ih =>
    intro i
    by_cases h : p a
    · cases i with
      | zero => simp [updateFirst, h, List.findIdx_cons]
      | succ j => simp [updateFirst, h, List.findIdx_cons]
    · cases i with
      | zero => simp [updateFirst, h, List.findIdx_cons]
      | succ j =>
        simp only [updateFirst, List.findIdx_cons, h, cond_false,
          List.getElem?_cons_succ, Bool.false_eq_true, if_false]
        rw [ih j]
        by_cases hj : t.findIdx p = j
        · simp [hj]
        · rw [if_neg hj, if_neg (fun hh => hj (Nat.succ_injective hh))]

theorem foldl_invariant {f : β → α → β} (P : β → Prop) :
    ∀ (l : List α) (b : β), P b → (∀ b a, a ∈ l → P b → P (f b a)) →
      P (l.foldl f b) := by
  intro l
  induction l with
  | nil => exact fun b hb _ => hb
  | cons a t ih =>
    intro b hb h
    exact ih _ (h b a (by simp) hb) (fun b' a' ha' => h b' a' (by simp [ha']))

theorem if_neg_energy_max (x : ℚ) : (if x < 0 then (0 : ℚ) else x) = max 0 x := by
  by_cases h : x < 0
  · simp [h, max_eq_left h.le]
  · simp [h, max_eq_right (not_lt.mp h)]

theorem findIdx_getElem?_true (p : α → Bool) :
    ∀ (l : List α) (x : α), l[l.findIdx p]? = some x → p x = true := by
  intro l
  induction l with
  | nil => intro x hx; simp at hx
  | cons a t ih =>
    intro x hx
    by_cases h : p a
    · simp [List.findIdx_cons, h] at hx
      rwa [hx] at h
    · simp only [List.findIdx_cons, h, cond_false, List.getElem?_cons_succ] at hx
      exact ih x hx

theorem updateFirst_getElem?_of_pred_false (p : α → Bool) (f : α → α)
    (l : List α) (i : ℕ) (v : α) (hv : l[i]? = some v) (hp : p v = false) :
    (updateFirst p f l)[i]? = some v := by
  rw [updateFirst_getElem?]
  by_cases h : l.findIdx p = i
  · have := findIdx_getElem?_true p l v (by rwa [h])
    rw [hp] at this
    exact absurd this (by simp)
  · simp [h, hv]

/-! ## Energy model: bystander lemmas -/

theorem memberTxStep_bystander (cfg : Config) (head : Sensor)
    (l : List Sensor) (m : Sensor) (i : ℕ) (v : Sensor)
    (hv : l[i]? = some v) (hne : v.id ≠ m.id) :
    (memberTxStep cfg head l m)[i]? = some v := by
  unfold memberTxStep
  cases hf : l.find? (fun s => s.id == m.id) with
  | none => exact hv
  | some ms =>
    by_cases hskip : ms.energy ≤ 0 ∨ ms.isAsleep
    · simp only [hskip, if_true]
      exact hv
    · simp only [hskip, if_false]
      exact updateFirst_getElem?_of_pred_false _ _ _ _ _ hv (by simp [hne])

theorem sleepingStep_bystander (l : List Sensor) (m : Sensor) (i : ℕ)
    (v : Sensor) (hv : l[i]? = some v) (hne : v.id ≠ m.id) :
    (sleepingStep l m)[i]? = some v := by
  unfold sleepingStep
  cases hf : l.find? (fun s => s.id == m.id) with
  | none => exact hv
  | some ms =>
    by_cases hskip : ms.energy ≤ 0
    · simp only [hskip, if_true]
      exact hv
    · simp only [hskip, if_false]
      exact updateFirst_getElem?_of_pred_false _ _ _ _ _ hv (by simp [hne])

set_option maxRecDepth 4000 in
/-- C1 (counterexample): with the zero-coefficient config and two singleton
clusters, each led by its own alive head, the bystander sensor 2 — alive,
awake, not a member of any cluster — ends the call at energy
`10 - 2·0.01 = 9.98`, not at `10 - 0.01 = 9.99`: the idle drain is charged
once per cluster, not once globally. -/
theorem C1_counterexample :
    (calculateEnergyConsumption cfgZero twoClusters sensors3 Alg.kmeans).map
        (fun s => s.energy) = [499/50, 499/50, 499/50] ∧
      (499/50 : ℚ) ≠ 10 - 1/100 := by
  constructor
  · with_unfolding_all decide
  · with_unfolding_all decide

/-- C1 (amended): the 0.01 idle drain is charged once per processed cluster
whose head is found alive, not once globally per round: with an empty
cluster list nothing at all is charged, and with a single cluster led by an
alive head every alive, awake sensor that is neither the head nor a member
nor a sleeping member pays exactly the 0.01 drain (clamped at zero). -/
theorem C1_amended_idle_drain (cfg : Config) (alg : Alg)
    (sensors : List Sensor) (c : Cluster) (head : Sensor) (i : ℕ) (s₀ : Sensor)
    (hs : sensors[i]? = some s₀)
    (hfind : sensors.find? (fun s => s.id == c.headId) = some head)
    (hhead : 0 < head.energy)
    (hid : s₀.id ≠ c.headId)
    (hmem : ∀ m ∈ c.members, s₀.id ≠ m.id)
    (hsleep : ∀ l, c.sleepingMembers = some l → ∀ m ∈ l, s₀.id ≠ m.id)
    (halive : 0 < s₀.energy) (hawake : s₀.isAsleep = false) :
    calculateEnergyConsumption cfg [] sensors alg = sensors ∧
    (calculateEnergyConsumption cfg [c] sensors alg)[i]? =
      some { s₀ with energy := max 0 (s₀.energy - 1/100) } := by
  refine ⟨rfl, ?_⟩
  show (clusterStep cfg alg sensors c)[i]? = _
  simp only [clusterStep, hfind]
  rw [if_neg (not_le.mpr hhead)]
  have h1 : (headDownlinkCharge cfg c sensors)[i]? = some s₀ := by
    unfold headDownlinkCharge
    exact updateFirst_getElem?_of_pred_false _ _ _ _ _ hs (by simp [hid])
  have h2 : (memberCharges cfg c head (headDownlinkCharge cfg c sensors))[i]? = some s₀ := by
    unfold memberCharges
    refine foldl_invariant (fun l => l[i]? = some s₀) _ _ h1 ?_
    intro l m hm hl
    exact memberTxStep_bystander _ _ _ _ _ _ hl (hmem m (List.mem_of_mem_filter hm))
  have h3 : (sleepingCharges alg c
      (memberCharges cfg c head (headDownlinkCharge cfg c sensors)))[i]? = some s₀ := by
    unfold sleepingCharges
    by_cases ha : alg = Alg.infoKmeans
    · simp only [ha, if_true]
      cases hsl : c.sleepingMembers with
      | none => exact h2
      | some sl =>
        refine foldl_invariant (fun l => l[i]? = some s₀) _ _ h2 ?_
        intro l m hm hl
        exact sleepingStep_bystander _ _ _ _ hl (hsleep sl hsl m hm)
    · simp only [ha, if_false]
      exact h2
  have h4 : (baseDrain (sleepingCharges alg c
      (memberCharges cfg c head (headDownlinkCharge cfg c sensors))))[i]? =
      some { s₀ with energy := max 0 (s₀.energy - 1/100) } := by
    unfold baseDrain
    rw [List.getElem?_map, h3, Option.map_some']
    rw [if_pos (show 0 < s₀.energy ∧ s₀.isAsleep = false from ⟨halive, hawake⟩)]
    show some { s₀ with
      energy := if s₀.energy - 1/100 < 0 then (0 : ℚ) else s₀.energy - 1/100 } = _
    rw [if_neg_energy_max]
  exact updateFirst_getElem?_of_pred_false _ _ _ _ _ h4 (by simp [hid])

/-- Witness for the amended C1 theorem at the concrete three-sensor,
one-cluster scenario. -/
theorem C1_amended_idle_drain_witness :
    sensors3[2]? = some (⟨2, 20, 0, 10, false⟩ : Sensor) ∧
    (calculateEnergyConsumption cfgZero [] sensors3 Alg.kmeans = sensors3 ∧
      (calculateEnergyConsumption cfgZero
          [⟨0, 0, [⟨0, 0, 0, 10, false⟩], none⟩] sensors3 Alg.kmeans)[2]? =
        some { (⟨2, 20, 0, 10, false⟩ : Sensor) with energy := max 0 (10 - 1/100) }) :=
  ⟨by with_unfolding_all decide,
    C1_amended_idle_drain cfgZero Alg.kmeans sensors3
      ⟨0, 0, [⟨0, 0, 0, 10, false⟩], none⟩ ⟨0, 0, 0, 10, false⟩ 2
      ⟨2, 20, 0, 10, false⟩ (by with_unfolding_all decide)
      (by with_unfolding_all decide) (by with_unfolding_all decide)
      (by with_unfolding_all decide) (by with_unfolding_all decide)
      (fun l h => Option.noConfusion h) (by with_unfolding_all decide)
      (by with_unfolding_all decide)⟩

/-! ## C2: the energy model never increases energy and clamps at 0 -/

theorem Decr_refl (l : List Sensor) : Decr l l :=
  ⟨rfl, fun _ _ _ => ⟨rfl, rfl, rfl, rfl, Or.inl rfl⟩⟩

theorem Decr_trans {a b c : List Sensor} (hab : Decr a b) (hbc : Decr b c) :
    Decr a c := by
  obtain ⟨hlab, hab⟩ := hab
  obtain ⟨hlbc, hbc⟩ := hbc
  refine ⟨hlbc.trans hlab, fun i h1 h2 => ?_⟩
  have hb : i < b.length := by omega
  obtain ⟨hid1, hx1, hy1, ha1, he1⟩ := hab i h1 hb
  obtain ⟨hid2, hx2, hy2, ha2, he2⟩ := hbc i hb h2
  refine ⟨hid2.trans hid1, hx2.trans hx1, hy2.trans hy1, ha2.trans ha1, ?_⟩
  rcases he1 with he1 | ⟨he1a, he1b⟩
  · rw [he1] at he2
    exact he2
  · rcases he2 with he2 | ⟨he2a, he2b⟩
    · rw [he2]
      exact Or.inr ⟨he1a, he1b⟩
    · exact Or.inr ⟨he2a, he2b.trans he1b⟩

theorem Decr_nonneg {l l' : List Sensor} (h : Decr l l')
    (h0 : ∀ s ∈ l, 0 ≤ s.energy) : ∀ s ∈ l', 0 ≤ s.energy := by
  intro s hmem
  obtain ⟨i, h2, rfl⟩ := List.mem_iff_getElem.mp hmem
  have h1 : i < l.length := by
    have := h.1
    omega
  obtain ⟨-, -, -, -, he⟩ := h.2 i h1 h2
  rcases he with he | ⟨he, -⟩
  · rw [he]
    exact h0 _ (List.getElem_mem h1)
  · exact he

theorem find?_eq_getElem?_findIdx (p : α → Bool) :
    ∀ l : List α, l.find? p = l[l.findIdx p]? := by
  intro l
  induction l with
  | nil => simp
  | cons a t ih =>
    by_cases h : p a
    · simp [List.find?_cons, h, List.findIdx_cons]
    · simp only [List.find?_cons, h, List.findIdx_cons, cond_false,
        List.getElem?_cons_succ]
      exact ih

theorem txEnergy_nonneg (cfg : Config) (m head : Sensor)
    (htx : 0 ≤ cfg.energyTxElec) (hdf : 0 ≤ cfg.distanceFactor) :
    0 ≤ txEnergy cfg m head := by
  unfold txEnergy distSq
  have : (0 : ℚ) ≤ (m.x - head.x) ^ 2 + (m.y - head.y) ^ 2 :=
    add_nonneg (sq_nonneg _) (sq_nonneg _)
  exact add_nonneg htx (mul_nonneg hdf this)

/-- A single guarded, clamped subtraction of a nonnegative amount keyed on
an id predicate is a `Decr` step. -/
theorem updateFirst_clamped_sub_decr (p : Sensor → Bool) (amt : Sensor → ℚ)
    (hamt : ∀ s, 0 ≤ amt s) (l : List Sensor) (ms : Sensor)
    (hfind : l.find? p = some ms) (hpos : 0 < ms.energy) :
    Decr l (updateFirst p
      (fun s => { s with
        energy := if s.energy - amt s < 0 then 0 else s.energy - amt s }) l) := by
  refine ⟨updateFirst_length _ _ _, fun i h1 h2 => ?_⟩
  have hg : (updateFirst p (fun s => { s with
      energy := if s.energy - amt s < 0 then 0 else s.energy - amt s }) l)[i]? =
      if l.findIdx p = i then (l[i]?).map _ else l[i]? := updateFirst_getElem? _ _ l i
  rw [List.getElem?_eq_getElem h2, List.getElem?_eq_getElem h1] at hg
  by_cases hidx : l.findIdx p = i
  · rw [if_pos hidx, Option.map_some'] at hg
    have hms : ms = l[i] := by
      have := find?_eq_getElem?_findIdx p l
      rw [hfind, hidx, List.getElem?_eq_getElem h1] at this
      exact Option.some_injective _ this
    have hupd := Option.some_injective _ hg
    rw [hupd]
    refine ⟨rfl, rfl, rfl, rfl, Or.inr ?_⟩
    constructor
    · rw [if_neg_energy_max]
      exact le_max_left _ _
    · rw [if_neg_energy_max]
      refine max_le ?_ ?_
      · rw [← hms]
        exact hpos.le
      · exact sub_le_self _ (hamt _)
  · rw [if_neg hidx] at hg
    have hupd := Option.some_injective _ hg
    rw [hupd]
    exact ⟨rfl, rfl, rfl, rfl, Or.inl rfl⟩

theorem memberTxStep_decr (cfg : Config) (head : Sensor)
    (htx : 0 ≤ cfg.energyTxElec) (hdf : 0 ≤ cfg.distanceFactor)
    (l : List Sensor) (m : Sensor) : Decr l (memberTxStep cfg head l m) := by
  unfold memberTxStep
  cases hf : l.find? (fun s => s.id == m.id) with
  | none => exact Decr_refl l
  | some ms =>
    by_cases hskip : ms.energy ≤ 0 ∨ ms.isAsleep
    · simp only [hskip, if_true]
      exact Decr_refl l
    · simp only [hskip, if_false]
      push_neg at hskip
      exact updateFirst_clamped_sub_decr _ (fun _ => txEnergy cfg m head)
        (fun _ => txEnergy_nonneg cfg m head htx hdf) l ms hf hskip.1

theorem sleepingStep_decr (l : List Sensor) (m : Sensor) :
    Decr l (sleepingStep l m) := by
  unfold sleepingStep
  cases hf : l.find? (fun s => s.id == m.id) with
  | none => exact Decr_refl l
  | some ms =>
    by_cases hskip : ms.energy ≤ 0
    · simp only [hskip, if_true]
      exact Decr_refl l
    · simp only [hskip, if_false]
      exact updateFirst_clamped_sub_decr _ (fun _ => 1/1000)
        (fun _ => by norm_num) l ms hf (not_le.mp hskip)

theorem baseDrain_decr (l : List Sensor) : Decr l (baseDrain l) := by
  refine ⟨by simp [baseDrain], fun i h1 h2 => ?_⟩
  have hg : (baseDrain l)[i]? = (l[i]?).map (fun s =>
      if 0 < s.energy ∧ s.isAsleep = false then
        let e := s.energy - 1/100
        { s with energy := if e < 0 then 0 else e }
      else s) := by
    unfold baseDrain
    rw [List.getElem?_map]
  rw [List.getElem?_eq_getElem h2, List.getElem?_eq_getElem h1, Option.map_some'] at hg
  rw [Option.some_injective _ hg]
  by_cases hc : 0 < l[i].energy ∧ l[i].isAsleep = false
  · rw [if_pos hc]
    refine ⟨rfl, rfl, rfl, rfl, Or.inr ?_⟩
    constructor
    · show (0 : ℚ) ≤ if l[i].energy - 1/100 < 0 then (0 : ℚ) else l[i].energy - 1/100
      rw [if_neg_energy_max]
      exact le_max_left _ _
    · show (if l[i].energy - 1/100 < 0 then (0 : ℚ) else l[i].energy - 1/100) ≤
        l[i].energy
      rw [if_neg_energy_max]
      exact max_le hc.1.le (sub_le_self _ (by norm_num))
  · rw [if_neg hc]
    exact ⟨rfl, rfl, rfl, rfl, Or.inl rfl⟩

theorem foldl_decr {f : List Sensor → α → List Sensor} {L : List α}
    {b : List Sensor} (h : ∀ acc x, x ∈ L → Decr acc (f acc x)) :
    Decr b (L.foldl f b) := by
  refine foldl_invariant (fun acc => Decr b acc) L b (Decr_refl b) ?_
  intro acc x hx hacc
  exact Decr_trans hacc (h acc x hx)

theorem findIdx_id_congr (n : ℕ) :
    ∀ (l l' : List Sensor), l'.length = l.length →
      (∀ (i : ℕ) (h1 : i < l.length) (h2 : i < l'.length), l'[i].id = l[i].id) →
      l'.findIdx (fun s => s.id == n) = l.findIdx (fun s => s.id == n) := by
  intro l
  induction l with
  | nil =>
    intro l' hlen _
    simp at hlen
    rw [hlen]
  | cons a t ih =>
    intro l' hlen hid
    cases l' with
    | nil => simp at hlen
    | cons a' t' =>
      have h0 : a'.id = a.id := hid 0 (by simp) (by simp)
      simp only [List.findIdx_cons, h0]
      by_cases h : a.id == n
      · simp [h]
      · simp only [h, cond_false]
        have := ih t' (by simpa using hlen)
          (fun i hi1 hi2 => hid (i + 1) (by simpa using hi1) (by simpa using hi2))
        rw [this]

/-- The elementwise fields (id, position, sleep flag) are preserved by
`Decr`. -/
theorem Decr_ids {l l' : List Sensor} (h : Decr l l') :
    ∀ (i : ℕ) (h1 : i < l.length) (h2 : i < l'.length), l'[i].id = l[i].id :=
  fun i h1 h2 => (h.2 i h1 h2).1

/-- The per-cluster body of the energy model is a `Decr` step whenever all
energies are nonnegative and the cost coefficients are nonnegative. -/
theorem clusterStep_decr (cfg : Config) (alg : Alg) (c : Cluster)
    (hrx : 0 ≤ cfg.energyRxElec) (htx : 0 ≤ cfg.energyTxElec)
    (hdf : 0 ≤ cfg.distanceFactor) (hsat : 0 ≤ cfg.energyToSatellite)
    (l : List Sensor) (h0 : ∀ s ∈ l, 0 ≤ s.energy) :
    Decr l (clusterStep cfg alg l c) := by
  unfold clusterStep
  cases hf : l.find? (fun s => s.id == c.headId) with
  | none => exact Decr_refl l
  | some head =>
    by_cases hh : head.energy ≤ 0
    · simp only [hh, if_true]
      exact Decr_refl l
    · simp only [hh, if_false]
      -- the head charge (may push the head entry negative)
      have hl1len : (headDownlinkCharge cfg c l).length = l.length :=
        updateFirst_length _ _ _
      -- chain of `Decr` steps from the charged list to the drained list
      have hQ2 : Decr (headDownlinkCharge cfg c l)
          (memberCharges cfg c head (headDownlinkCharge cfg c l)) := by
        unfold memberCharges
        exact foldl_decr (fun acc m _ => memberTxStep_decr cfg head htx hdf acc m)
      have hQ3 : Decr (memberCharges cfg c head (headDownlinkCharge cfg c l))
          (sleepingCharges alg c (memberCharges cfg c head (headDownlinkCharge cfg c l))) := by
        unfold sleepingCharges
        by_cases ha : alg = Alg.infoKmeans
        · simp only [ha, if_true]
          cases c.sleepingMembers with
          | none => exact Decr_refl _
          | some sl => exact foldl_decr (fun acc m _ => sleepingStep_decr acc m)
        · simp only [ha, if_false]
          exact Decr_refl _
      have hQ4 : Decr (sleepingCharges alg c (memberCharges cfg c head
          (headDownlinkCharge cfg c l)))
          (baseDrain (sleepingCharges alg c (memberCharges cfg c head
            (headDownlinkCharge cfg c l)))) := baseDrain_decr _
      have hQ : Decr (headDownlinkCharge cfg c l)
          (baseDrain (sleepingCharges alg c (memberCharges cfg c head
            (headDownlinkCharge cfg c l)))) :=
        Decr_trans hQ2 (Decr_trans hQ3 hQ4)
      set l4 := baseDrain (sleepingCharges alg c (memberCharges cfg c head
        (headDownlinkCharge cfg c l))) with hl4
      -- lengths
      have hlen4 : l4.length = l.length := by
        rw [hQ.1, hl1len]
      refine ⟨by rw [headClamp, updateFirst_length, hlen4], fun i h1 h2 => ?_⟩
      have h2' : i < l4.length := by
        rw [hlen4]
        exact h1
      have h1' : i < (headDownlinkCharge cfg c l).length := by
        rw [hl1len]
        exact h1
      -- the head charge at index i
      have hA : (headDownlinkCharge cfg c l)[i]? =
          if l.findIdx (fun s => s.id == c.headId) = i then
            (l[i]?).map (fun s => { s with
              energy := s.energy -
                ((c.members.filter (fun m => m.id ≠ c.headId)).length : ℚ) *
                  cfg.energyRxElec - cfg.energyToSatellite })
          else l[i]? :=
        updateFirst_getElem? _ _ l i
      -- the final clamp at index i, with findIdx transported from l to l4
      have hids4 : ∀ (j : ℕ) (hj1 : j < l.length) (hj2 : j < l4.length),
          l4[j].id = l[j].id := by
        intro j hj1 hj2
        have hj1' : j < (headDownlinkCharge cfg c l).length := by omega
        have hidq := Decr_ids hQ j hj1' hj2
        rw [hidq]
        have hB : (headDownlinkCharge cfg c l)[j]? = _ := updateFirst_getElem? _ _ l j
        rw [List.getElem?_eq_getElem hj1', List.getElem?_eq_getElem hj1] at hB
        by_cases hidx : l.findIdx (fun s => s.id == c.headId) = j
        · rw [if_pos hidx, Option.map_some'] at hB
          rw [Option.some_injective _ hB]
        · rw [if_neg hidx] at hB
          rw [Option.some_injective _ hB]
      have hfidx : l4.findIdx (fun s => s.id == c.headId) =
          l.findIdx (fun s => s.id == c.headId) :=
        findIdx_id_congr c.headId l l4 hlen4 hids4
      have hC : (headClamp c l4)[i]? =
          if l4.findIdx (fun s => s.id == c.headId) = i then
            (l4[i]?).map (fun s => if s.energy < 0 then { s with energy := 0 } else s)
          else l4[i]? :=
        updateFirst_getElem? _ _ l4 i
      have h2'' : i < (headClamp c l4).length := by
        rw [headClamp, updateFirst_length]
        exact h2'
      rw [List.getElem?_eq_getElem h2''] at hC
      rw [hfidx] at hC
      -- the element of l4 at i, related back to l
      obtain ⟨hid4, hx4, hy4, ha4, he4⟩ := hQ.2 i h1' h2'
      by_cases hidx : l.findIdx (fun s => s.id == c.headId) = i
      · -- the head entry: energy went down by rx+sat, possibly negative,
        -- then only decreased further, and is finally clamped at 0
        rw [List.getElem?_eq_getElem h1, if_pos hidx, Option.map_some'] at hA
        have hl1i := Option.some_injective _
          ((List.getElem?_eq_getElem h1').symm.trans hA)
        rw [if_pos hidx, List.getElem?_eq_getElem h2'] at hC
        simp only [Option.map_some'] at hC
        have hgoal := Option.some_injective _ hC
        show _ ∧ _ ∧ _ ∧ _ ∧ _
        have hfields : l4[i].id = l[i].id ∧ l4[i].x = l[i].x ∧ l4[i].y = l[i].y ∧
            l4[i].isAsleep = l[i].isAsleep := by
          rw [hid4, hx4, hy4, ha4, hl1i]
          exact ⟨rfl, rfl, rfl, rfl⟩
        have he0 : 0 ≤ l[i].energy := h0 _ (List.getElem_mem h1)
        have hup : l4[i].energy ≤ l[i].energy := by
          have hle1 : (headDownlinkCharge cfg c l)[i].energy ≤ l[i].energy := by
            rw [hl1i]
            simp only
            have : (0 : ℚ) ≤ ((c.members.filter (fun m => m.id ≠ c.headId)).length : ℚ) *
                cfg.energyRxElec := mul_nonneg (by positivity) hrx
            linarith
          rcases he4 with he4 | ⟨-, he4b⟩
          · rw [he4]
            exact hle1
          · exact he4b.trans hle1
        by_cases hneg : l4[i].energy < 0
        · rw [if_pos hneg] at hgoal
          rw [hgoal]
          exact ⟨hfields.1, hfields.2.1, hfields.2.2.1, hfields.2.2.2,
            Or.inr ⟨le_refl 0, he0⟩⟩
        · rw [if_neg hneg] at hgoal
          rw [hgoal]
          exact ⟨hfields.1, hfields.2.1, hfields.2.2.1, hfields.2.2.2,
            Or.inr ⟨not_lt.mp hneg, hup⟩⟩
      · -- a non-head entry: never touched by the two head operations
        rw [List.getElem?_eq_getElem h1, if_neg hidx] at hA
        have hl1i := Option.some_injective _
          ((List.getElem?_eq_getElem h1').symm.trans hA)
        rw [if_neg hidx, List.getElem?_eq_getElem h2'] at hC
        have hgoal := Option.some_injective _ hC
        rw [hgoal]
        rw [hl1i] at hid4 hx4 hy4 ha4 he4
        exact ⟨hid4, hx4, hy4, ha4, he4⟩

/-- All of `calculateEnergyConsumption` is a `Decr` step. -/
theorem calculateEnergyConsumption_decr (cfg : Config) (clusters : List Cluster)
    (sensors : List Sensor) (alg : Alg)
    (hrx : 0 ≤ cfg.energyRxElec) (htx : 0 ≤ cfg.energyTxElec)
    (hdf : 0 ≤ cfg.distanceFactor) (hsat : 0 ≤ cfg.energyToSatellite)
    (h0 : ∀ s ∈ sensors, 0 ≤ s.energy) :
    Decr sensors (calculateEnergyConsumption cfg clusters sensors alg) := by
  unfold calculateEnergyConsumption
  refine foldl_invariant (fun acc => Decr sensors acc) clusters sensors
    (Decr_refl sensors) ?_
  intro acc c _ hacc
  exact Decr_trans hacc
    (clusterStep_decr cfg alg c hrx htx hdf hsat acc (Decr_nonneg hacc h0))

/-- C2: for every sensor and every call to `calculateEnergyConsumption`
(any cluster list, any sensor list with nonnegative energies, any
algorithm kind, nonnegative cost coefficients), the sensor's energy after
the call lies in `[0, energy before]`; in particular a sensor at energy 0
stays at 0, so along any run energies are non-increasing and absorbing at
0. -/
theorem C2_energy_bounds (cfg : Config) (clusters : List Cluster)
    (sensors : List Sensor) (alg : Alg)
    (hrx : 0 ≤ cfg.energyRxElec) (htx : 0 ≤ cfg.energyTxElec)
    (hdf : 0 ≤ cfg.distanceFactor) (hsat : 0 ≤ cfg.energyToSatellite)
    (h0 : ∀ s ∈ sensors, 0 ≤ s.energy)
    (i : ℕ) (s₀ : Sensor) (hs : sensors[i]? = some s₀) :
    (calculateEnergyConsumption cfg clusters sensors alg).length = sensors.length ∧
    ∃ s₁, (calculateEnergyConsumption cfg clusters sensors alg)[i]? = some s₁ ∧
      0 ≤ s₁.energy ∧ s₁.energy ≤ s₀.energy ∧ (s₀.energy = 0 → s₁.energy = 0) := by
  have hD := calculateEnergyConsumption_decr cfg clusters sensors alg hrx htx hdf hsat h0
  refine ⟨hD.1, ?_⟩
  have h1 : i < sensors.length := by
    by_contra hcon
    rw [List.getElem?_eq_none (by omega)] at hs
    exact Option.noConfusion hs
  have h2 : i < (calculateEnergyConsumption cfg clusters sensors alg).length := by
    rw [hD.1]
    exact h1
  refine ⟨(calculateEnergyConsumption cfg clusters sensors alg)[i],
    List.getElem?_eq_getElem h2, ?_⟩
  have hs₀ : sensors[i] = s₀ := by
    rw [List.getElem?_eq_getElem h1] at hs
    exact Option.some_injective _ hs
  obtain ⟨-, -, -, -, he⟩ := hD.2 i h1 h2
  rw [hs₀] at he
  have he0 : 0 ≤ s₀.energy := by
    rw [← hs₀]
    exact h0 _ (List.getElem_mem h1)
  rcases he with he | ⟨hea, heb⟩
  · rw [he]
    exact ⟨he0, le_refl _, fun hz => hz⟩
  · exact ⟨hea, heb, fun hz => le_antisymm (hz ▸ heb) hea⟩

/-- Witness for C2 at the concrete two-cluster scenario. -/
theorem C2_energy_bounds_witness :
    (∀ s ∈ sensors3, 0 ≤ s.energy) ∧
    ((calculateEnergyConsumption cfgZero twoClusters sensors3 Alg.kmeans).length =
        sensors3.length ∧
      ∃ s₁, (calculateEnergyConsumption cfgZero twoClusters sensors3 Alg.kmeans)[2]? =
          some s₁ ∧ 0 ≤ s₁.energy ∧
          s₁.energy ≤ (⟨2, 20, 0, 10, false⟩ : Sensor).energy ∧
          ((⟨2, 20, 0, 10, false⟩ : Sensor).energy = 0 → s₁.energy = 0)) :=
  ⟨by with_unfolding_all decide,
    C2_energy_bounds cfgZero twoClusters sensors3 Alg.kmeans
      (le_refl 0) (le_refl 0) (le_refl 0) (le_refl 0)
      (by with_unfolding_all decide) 2 ⟨2, 20, 0, 10, false⟩
      (by with_unfolding_all decide)⟩

/-! ## C3: network lifetime bookkeeping of the round loop -/

theorem find?_range_succ_of_false (q : ℕ → Bool) (rem : ℕ) (hq : q 0 = false) :
    (List.range (rem + 1)).find? q =
      ((List.range rem).find? (fun k => q (k + 1))).map (· + 1) := by
  rw [List.range_succ_eq_map, List.find?_cons]
  simp only [hq, cond_false]
  rw [List.find?_map]
  rfl

theorem find?_range_succ_of_true (q : ℕ → Bool) (rem : ℕ) (hq : q 0 = true) :
    (List.range (rem + 1)).find? q = some 0 := by
  rw [List.range_succ_eq_map, List.find?_cons]
  simp [hq]

theorem runLoopAux_spec {σ Fr : Type} (alive : σ → Bool)
    (body : ℕ → σ → List Fr → σ × Fr × ℚ) (init : σ) :
    ∀ (rem n : ℕ),
      runLoopAux alive body rem n (traj body init n).1 (traj body init n).2.1
        (traj body init n).2.2 0 =
      { history := (traj body init (n +
          (((List.range rem).find? (fun k => !alive (traj body init (n + k)).1)).getD rem))).2.1,
        estimationErrors := (traj body init (n +
          (((List.range rem).find? (fun k => !alive (traj body init (n + k)).1)).getD rem))).2.2,
        networkLifetime :=
          if ((List.range rem).find? (fun k => !alive (traj body init (n + k)).1)).isSome then
            n + (((List.range rem).find? (fun k => !alive (traj body init (n + k)).1)).getD rem)
          else 0,
        totalRounds := n +
          (((List.range rem).find? (fun k => !alive (traj body init (n + k)).1)).getD rem),
        finalState := (traj body init (n +
          (((List.range rem).find? (fun k => !alive (traj body init (n + k)).1)).getD rem))).1 } := by
  intro rem
  induction rem with
  | zero =>
    intro n
    simp [runLoopAux]
  | succ rem ih =>
    intro n
    by_cases ha : alive (traj body init n).1
    · have hq0 : (fun k => !alive (traj body init (n + k)).1) 0 = false := by
        simp [ha]
      have hshift := find?_range_succ_of_false
        (fun k => !alive (traj body init (n + k)).1) rem hq0
      have hfun : (fun k => (fun j => !alive (traj body init (n + j)).1) (k + 1)) =
          (fun k => !alive (traj body init ((n + 1) + k)).1) := by
        funext k
        have : n + (k + 1) = (n + 1) + k := by omega
        simp [this]
      rw [hfun] at hshift
      have hstep : runLoopAux alive body (rem + 1) n (traj body init n).1
          (traj body init n).2.1 (traj body init n).2.2 0 =
          runLoopAux alive body rem (n + 1) (traj body init (n + 1)).1
            (traj body init (n + 1)).2.1 (traj body init (n + 1)).2.2 0 := by
        rw [runLoopAux]
        rw [if_pos ha]
        rfl
      rw [hstep, ih (n + 1), hshift]
      cases hfnd : (List.range rem).find? (fun k => !alive (traj body init ((n + 1) + k)).1) with
      | none =>
        simp only [hfnd, Option.map_none', Option.getD_none, Option.isSome_none,
          Bool.false_eq_true, if_false]
        have : (n + 1) + rem = n + (rem + 1) := by omega
        rw [this]
      | some k =>
        simp only [hfnd, Option.map_some', Option.getD_some, Option.isSome_some, if_true]
        have : (n + 1) + k = n + (k + 1) := by omega
        rw [this]
    · have hq0 : (fun k => !alive (traj body init (n + k)).1) 0 = true := by
        simp [ha]
      have hfnd := find?_range_succ_of_true
        (fun k => !alive (traj body init (n + k)).1) rem hq0
      rw [runLoopAux]
      rw [if_neg (by simpa using ha)]
      rw [hfnd]
      simp

/-- C3: the reported `networkLifetime` of a strategy run equals the first
round index at which no sensor is alive, or the round budget when that is
exhausted first; `totalRounds` and the lengths of the recorded history and
error series all coincide with it.  In particular, when no sensor is alive
at the start (all energies 0), the lifetime is 0 and the history is
empty. -/
theorem C3_network_lifetime {σ Fr : Type} (alive : σ → Bool)
    (body : ℕ → σ → List Fr → σ × Fr × ℚ) (init : σ) (maxRounds : ℕ) :
    (runLoop alive body maxRounds init).networkLifetime =
      (deadBefore alive body init maxRounds).getD maxRounds ∧
    (runLoop alive body maxRounds init).totalRounds =
      (deadBefore alive body init maxRounds).getD maxRounds ∧
    (runLoop alive body maxRounds init).history.length =
      (deadBefore alive body init maxRounds).getD maxRounds ∧
    (runLoop alive body maxRounds init).estimationErrors.length =
      (deadBefore alive body init maxRounds).getD maxRounds := by
  have htraj : ∀ m : ℕ, (traj body init m).2.1.length = m ∧
      (traj body init m).2.2.length = m := by
    intro m
    induction m with
    | zero => exact ⟨rfl, rfl⟩
    | succ m ihm =>
      constructor
      · show ((traj body init m).2.1 ++ [_]).length = m + 1
        rw [List.length_append, ihm.1]
        rfl
      · show ((traj body init m).2.2 ++ [_]).length = m + 1
        rw [List.length_append, ihm.2]
        rfl
  have hspec := runLoopAux_spec alive body init maxRounds 0
  have hzero : ∀ k : ℕ, 0 + k = k := fun k => by omega
  simp only [hzero] at hspec
  rw [show (traj body init 0).1 = init from rfl, show (traj body init 0).2.1 = ([] : List Fr) from rfl,
    show (traj body init 0).2.2 = ([] : List ℚ) from rfl] at hspec
  unfold runLoop deadBefore
  rw [hspec]
  cases hfnd : (List.range maxRounds).find? (fun k => !alive (traj body init k).1) with
  | none =>
    simp only [hfnd, Option.isSome_none, Bool.false_eq_true, if_false,
      Option.getD_none]
    exact ⟨by simp, by simp, by simp [(htraj maxRounds).1], by simp [(htraj maxRounds).2]⟩
  | some k =>
    simp only [hfnd, Option.isSome_some, if_true, Option.getD_some]
    refine ⟨?_, by simp, by simp [(htraj k).1], by simp [(htraj k).2]⟩
    by_cases hk : k = 0
    · simp [hk]
    · simp [hk]

/-! ## C5: the estimation module computes inverse-distance weighting over
the k nearest cached neighbors -/

theorem estStep_foldl (dist : Sensor → Sensor → ℚ) (eps : ℚ) (target : Sensor)
    (lastKnown : ℕ → Option SData) :
    ∀ (L : List Sensor) (acc : EstAcc),
      L.foldl (estStep dist eps target lastKnown) acc =
      { wSum := acc.wSum + ((L.filterMap (fun n => (lastKnown n.id).map (fun d => (n, d)))).map
          (fun nd => 1 / (dist nd.1 target + eps))).sum,
        salinity := acc.salinity + ((L.filterMap (fun n => (lastKnown n.id).map (fun d => (n, d)))).map
          (fun nd => nd.2.salinity * (1 / (dist nd.1 target + eps)))).sum,
        pressure := acc.pressure + ((L.filterMap (fun n => (lastKnown n.id).map (fun d => (n, d)))).map
          (fun nd => nd.2.pressure * (1 / (dist nd.1 target + eps)))).sum,
        temperature := acc.temperature + ((L.filterMap (fun n => (lastKnown n.id).map (fun d => (n, d)))).map
          (fun nd => nd.2.temperature * (1 / (dist nd.1 target + eps)))).sum,
        ph := acc.ph + ((L.filterMap (fun n => (lastKnown n.id).map (fun d => (n, d)))).map
          (fun nd => nd.2.ph * (1 / (dist nd.1 target + eps)))).sum,
        used := acc.used + (L.filterMap (fun n => (lastKnown n.id).map (fun d => (n, d)))).length } := by
  intro L
  induction L with
  | nil =>
    intro acc
    cases acc
    simp
  | cons n L ih =>
    intro acc
    rw [List.foldl_cons]
    cases hl : lastKnown n.id with
    | none =>
      have hstep : estStep dist eps target lastKnown acc n = acc := by
        unfold estStep
        rw [hl]
      rw [hstep, ih acc]
      simp only [List.filterMap_cons, hl, Option.map_none']
    | some nd =>
      have hstep : estStep dist eps target lastKnown acc n =
          ⟨acc.wSum + 1 / (dist n target + eps),
            acc.salinity + nd.salinity * (1 / (dist n target + eps)),
            acc.pressure + nd.pressure * (1 / (dist n target + eps)),
            acc.temperature + nd.temperature * (1 / (dist n target + eps)),
            acc.ph + nd.ph * (1 / (dist n target + eps)), acc.used + 1⟩ := by
        unfold estStep
        rw [hl]
      rw [hstep, ih _]
      simp only [List.filterMap_cons, hl, Option.map_some', List.map_cons,
        List.sum_cons, List.length_cons, EstAcc.mk.injEq]
      refine ⟨by ring, by ring, by ring, by ring, by ring, by omega⟩

/-- C5: `estimateSensorValueEnhanced` coincides with the declarative
inverse-distance-weighted reconstruction of the spec: among the target's k
nearest sensors of the given layout, those with a cached last-known
reading contribute with weight `1/(dist+ε)`, and the environment oracle is
consulted exactly when no such neighbor exists. -/
theorem C5_estimation_idw (dist : Sensor → Sensor → ℚ) (eps : ℚ) (k : ℕ)
    (oracle : ℚ → ℚ → ℕ → Reading4) (target : Sensor) (roundIdx : ℕ)
    (lastKnown : ℕ → Option SData) (allSensors : List Sensor) :
    estimateSensorValueEnhanced dist eps k oracle target roundIdx lastKnown allSensors =
      specIDWEstimate dist eps k oracle target roundIdx lastKnown allSensors := by
  unfold estimateSensorValueEnhanced specIDWEstimate
  by_cases hN : (kNearest dist k target allSensors).isEmpty
  · rw [if_pos hN]
    have hnil : kNearest dist k target allSensors = [] := by
      cases h : kNearest dist k target allSensors with
      | nil => rfl
      | cons a t => rw [h] at hN; exact absurd hN (by simp)
    rw [if_pos (by rw [hnil]; rfl)]
  · rw [if_neg hN]
    rw [estStep_foldl]
    simp only [zero_add]
    by_cases hC : ((kNearest dist k target allSensors).filterMap
        (fun n => (lastKnown n.id).map (fun d => (n, d)))).isEmpty
    · have hCnil : (kNearest dist k target allSensors).filterMap
          (fun n => (lastKnown n.id).map (fun d => (n, d))) = [] := by
        cases h : (kNearest dist k target allSensors).filterMap
            (fun n => (lastKnown n.id).map (fun d => (n, d))) with
        | nil => rfl
        | cons a t => rw [h] at hC; exact absurd hC (by simp)
      rw [if_pos hC]
      rw [hCnil]
      simp
    · have hlen : ((kNearest dist k target allSensors).filterMap
          (fun n => (lastKnown n.id).map (fun d => (n, d)))).length ≠ 0 := by
        intro hz
        exact absurd (List.isEmpty_iff.mpr (List.length_eq_zero.mp hz)) hC
      rw [if_neg hC]
      rw [if_neg hlen]

/-! ## C4: LEACH head-rotation cool-down -/

theorem updateFirst_cons (p : α → Bool) (f : α → α) (a : α) (l : List α) :
    updateFirst p f (a :: l) = if p a then f a :: l else a :: updateFirst p f l :=
  rfl

theorem find?_cons_eq (p : α → Bool) (a : α) (l : List α) :
    (a :: l).find? p = if p a = true then some a else l.find? p := by
  cases h : p a with
  | true => rw [if_pos rfl, List.find?_cons_of_pos _ h]
  | false =>
    rw [if_neg (by simp), List.find?_cons_of_neg]
    simp [h]

theorem find?_updateFirst_key (n : LeachNode) (i j : ℕ) (hij : j ≠ i) :
    ∀ st : LeachState,
      (updateFirst (fun p => p.1 == i) (fun p => (p.1, n)) st).find?
          (fun p => p.1 == j) =
        st.find? (fun p => p.1 == j) := by
  intro st
  induction st with
  | nil => rfl
  | cons a t ih =>
    rw [updateFirst_cons]
    by_cases ha : ((a.1 == i) : Bool) = true
    · rw [if_pos ha]
      by_cases haj : ((a.1 == j) : Bool) = true
      · exfalso
        have h1 : a.1 = i := by simpa using ha
        have h2 : a.1 = j := by simpa using haj
        exact hij (by omega)
      · rw [find?_cons_eq, find?_cons_eq]
        rw [if_neg (show ¬((((a.1, n).1 == j) : Bool) = true) by simpa using haj)]
        rw [if_neg haj]
    · rw [if_neg ha]
      rw [find?_cons_eq, find?_cons_eq]
      by_cases haj : ((a.1 == j) : Bool) = true
      · rw [if_pos haj, if_pos haj]
      · rw [if_neg haj, if_neg haj, ih]

theorem lookupNode_setNode_ne (st : LeachState) (i j : ℕ) (n : LeachNode)
    (hij : j ≠ i) : lookupNode (setNode st i n) j = lookupNode st j := by
  unfold setNode
  by_cases hpres : (st.find? (fun p => p.1 == i)).isSome
  · rw [if_pos hpres]
    unfold lookupNode
    rw [find?_updateFirst_key n i j hij st]
  · rw [if_neg hpres]
    unfold lookupNode
    rw [List.find?_append]
    cases hfs : st.find? (fun p => p.1 == j) with
    | some v => simp [hfs]
    | none =>
      have h1 : (((i, n).1 == j) : Bool) = false := by
        simp
        omega
      rw [find?_cons_eq]
      rw [if_neg (by simp [h1])]
      rfl

theorem jsInsert_mem (cmp : α → α → ℚ) (y : α) :
    ∀ (t : List α) (x : α), x ∈ jsInsert cmp y t → x = y ∨ x ∈ t := by
  intro t
  induction t with
  | nil =>
    intro x hx
    simp [jsInsert] at hx
    exact Or.inl hx
  | cons a t ih =>
    intro x hx
    unfold jsInsert at hx
    by_cases hc : cmp y a < 0
    · rw [if_pos hc] at hx
      rcases List.mem_cons.mp hx with h | h
      · exact Or.inl h
      · exact Or.inr h
    · rw [if_neg hc] at hx
      rcases List.mem_cons.mp hx with h | h
      · exact Or.inr (List.mem_cons.mpr (Or.inl h))
      · rcases ih x h with h' | h'
        · exact Or.inl h'
        · exact Or.inr (List.mem_cons.mpr (Or.inr h'))

theorem jsSort_mem (cmp : α → α → ℚ) (l : List α) (x : α)
    (hx : x ∈ jsSort cmp l) : x ∈ l := by
  unfold jsSort at hx
  have aux : ∀ (L : List α) (acc : List α), x ∈ L.foldl (fun acc y => jsInsert cmp y acc) acc →
      x ∈ acc ∨ x ∈ L := by
    intro L
    induction L with
    | nil => exact fun acc h => Or.inl h
    | cons a t ih =>
      intro acc h
      rcases ih _ h with h' | h'
      · rcases jsInsert_mem cmp a acc x h' with h'' | h''
        · exact Or.inr (by simp [h''])
        · exact Or.inl h''
      · exact Or.inr (List.mem_cons.mpr (Or.inr h'))
  rcases aux l [] hx with h | h
  · exact absurd h (List.not_mem_nil x)
  · exact h

theorem leachPhase1_mem (st : LeachState) (sorted : List (Sensor × ℚ))
    (numToSelect rnd : ℕ) (x : Sensor)
    (hx : x ∈ (leachPhase1 st sorted numToSelect rnd).1) :
    ∃ c ∈ sorted.take numToSelect, c.1 = x ∧ 0 < c.2 := by
  unfold leachPhase1 at hx
  have aux : ∀ (L : List (Sensor × ℚ)) (acc : List Sensor × LeachState),
      x ∈ (L.foldl (fun acc c =>
        if 0 < c.2 then (acc.1 ++ [c.1], setNode acc.2 c.1.id ⟨true, (rnd : ℤ)⟩)
        else acc) acc).1 →
      x ∈ acc.1 ∨ ∃ c ∈ L, c.1 = x ∧ 0 < c.2 := by
    intro L
    induction L with
    | nil => exact fun acc h => Or.inl h
    | cons c t ih =>
      intro acc h
      by_cases hc : 0 < c.2
      · rw [List.foldl_cons, if_pos hc] at h
        rcases ih _ h with h' | h'
        · rcases List.mem_append.mp h' with h'' | h''
          · exact Or.inl h''
          · refine Or.inr ⟨c, by simp, ?_, hc⟩
            exact (List.mem_singleton.mp h'').symm
        · obtain ⟨c', hc', hcx, hcp⟩ := h'
          exact Or.inr ⟨c', List.mem_cons.mpr (Or.inr hc'), hcx, hcp⟩
      · rw [List.foldl_cons, if_neg hc] at h
        rcases ih _ h with h' | h'
        · exact Or.inl h'
        · obtain ⟨c', hc', hcx, hcp⟩ := h'
          exact Or.inr ⟨c', List.mem_cons.mpr (Or.inr hc'), hcx, hcp⟩
  rcases aux (sorted.take numToSelect) ([], st) hx with h | h
  · exact absurd h (List.not_mem_nil x)
  · exact h

theorem leachCandidates_spec (rnd : ℕ) (k : ℚ) (cycle : ℕ) :
    ∀ (L : List Sensor) (st : LeachState) (acc : List (Sensor × ℚ)),
      (L.map (fun s => s.id)).Nodup →
      ∀ pr ∈ (L.foldl (fun acc s =>
          let node := (lookupNode acc.2 s.id).getD ⟨false, -1⟩
          let p := calcProb node s.energy rnd k cycle
          (acc.1 ++ [(s, p.1)], setNode acc.2 s.id p.2)) (acc, st)).1,
        pr ∈ acc ∨ (pr.1 ∈ L ∧
          pr.2 = (calcProb ((lookupNode st pr.1.id).getD ⟨false, -1⟩)
            pr.1.energy rnd k cycle).1) := by
  intro L
  induction L with
  | nil => exact fun st acc _ pr hpr => Or.inl hpr
  | cons a t ih =>
    intro st acc hnodup pr hpr
    rw [List.foldl_cons] at hpr
    have hnd : (t.map (fun s => s.id)).Nodup := (List.nodup_cons.mp hnodup).2
    have hna : a.id ∉ t.map (fun s => s.id) := (List.nodup_cons.mp hnodup).1
    rcases ih _ _ hnd pr hpr with h' | ⟨hmem, hp⟩
    · rcases List.mem_append.mp h' with h'' | h''
      · exact Or.inl h''
      · have : pr = (a, (calcProb ((lookupNode st a.id).getD ⟨false, -1⟩)
            a.energy rnd k cycle).1) := by simpa using h''
        refine Or.inr ⟨?_, ?_⟩
        · rw [this]
          simp
        · rw [this]
    · have hne : pr.1.id ≠ a.id := by
        intro he
        exact hna (he ▸ List.mem_map.mpr ⟨pr.1, hmem, rfl⟩)
      refine Or.inr ⟨List.mem_cons.mpr (Or.inr hmem), ?_⟩
      rw [hp, lookupNode_setNode_ne _ _ _ _ hne]

theorem calcProb_pos_not_blocked (node : LeachNode) (energy : ℚ) (rnd : ℕ)
    (k : ℚ) (cycle : ℕ) (hpos : 0 < (calcProb node energy rnd k cycle).1) :
    ¬(node.wasClusterHead = true ∧
      (rnd : ℤ) - (cycle : ℤ) ≤ node.lastClusterHeadRound) := by
  intro hblock
  unfold calcProb at hpos
  rw [if_pos hblock] at hpos
  exact absurd hpos (by norm_num)

/-- C4 (amended): a sensor that served as cluster head within the current
rotation window (its recorded headship round is at least
`round - roundsPerCycle`) is never selected through the probability-based
(threshold) selection of `selectClusterHeads`; the counterexample shows the
insufficient-heads fallback does not respect this cool-down, so the
original claim fails for the full returned head set. -/
theorem C4_amended_no_reselection (st1 : LeachState) (alive : List Sensor)
    (rnd desired : ℕ) (k : ℚ) (cycle : ℕ)
    (hnodup : (alive.map (fun s => s.id)).Nodup) (s : Sensor)
    (hs : s ∈ (leachPhase1 (leachCandidates st1 alive rnd k cycle).2
        (jsSort leachCmp (leachCandidates st1 alive rnd k cycle).1)
        (min desired (leachCandidates st1 alive rnd k cycle).1.length) rnd).1)
    (node : LeachNode) (hnode : lookupNode st1 s.id = some node) :
    ¬(node.wasClusterHead = true ∧
      (rnd : ℤ) - (cycle : ℤ) ≤ node.lastClusterHeadRound) := by
  obtain ⟨c, hc, hcx, hcp⟩ := leachPhase1_mem _ _ _ _ s hs
  have hc' : c ∈ jsSort leachCmp (leachCandidates st1 alive rnd k cycle).1 :=
    List.mem_of_mem_take hc
  have hc'' : c ∈ (leachCandidates st1 alive rnd k cycle).1 :=
    jsSort_mem _ _ _ hc'
  have hspec := leachCandidates_spec rnd k cycle alive st1 [] hnodup c
    (by exact hc'')
  rcases hspec with h | ⟨-, hp⟩
  · exact absurd h (List.not_mem_nil c)
  · rw [hcx] at hp
    rw [hnode] at hp
    simp only [Option.getD_some] at hp
    rw [hp] at hcp
    exact calcProb_pos_not_blocked node s.energy rnd k cycle hcp

/-- Witness for the amended C4 theorem: the very first LEACH call on three
fresh full-energy sensors (cycle length 2) selects sensors 0 and 1 through
the threshold path, and sensor 0's fresh node is indeed not in cool-down. -/
theorem C4_amended_no_reselection_witness :
    ((leach3.map (fun s => s.id)).Nodup ∧
      (⟨0, 0, 0, 100, false⟩ : Sensor) ∈ (leachPhase1
        (leachCandidates [(0, ⟨false, -1⟩), (1, ⟨false, -1⟩), (2, ⟨false, -1⟩)]
          leach3 0 (2/3) 2).2
        (jsSort leachCmp (leachCandidates
          [(0, ⟨false, -1⟩), (1, ⟨false, -1⟩), (2, ⟨false, -1⟩)]
          leach3 0 (2/3) 2).1)
        (min 2 (leachCandidates
          [(0, ⟨false, -1⟩), (1, ⟨false, -1⟩), (2, ⟨false, -1⟩)]
          leach3 0 (2/3) 2).1.length) 0).1 ∧
      lookupNode [(0, ⟨false, -1⟩), (1, ⟨false, -1⟩), (2, ⟨false, -1⟩)] 0 =
        some ⟨false, -1⟩) ∧
    ¬((⟨false, -1⟩ : LeachNode).wasClusterHead = true ∧
      (0 : ℤ) - (2 : ℤ) ≤ (⟨false, -1⟩ : LeachNode).lastClusterHeadRound) :=
  ⟨⟨by decide, by with_unfolding_all decide, by with_unfolding_all decide⟩,
    C4_amended_no_reselection
      [(0, ⟨false, -1⟩), (1, ⟨false, -1⟩), (2, ⟨false, -1⟩)] leach3 0 2 (2/3) 2
      (by decide) ⟨0, 0, 0, 100, false⟩ (by with_unfolding_all decide)
      ⟨false, -1⟩ (by with_unfolding_all decide)⟩

/-- C4 (counterexample): after the LEACH call at round 0 selects sensor 0
as head (recording headship round 0), the call at round 1 — still within
sensor 0's rotation cycle of length 2, since `0 ≥ 1 - 2` — returns sensor 0
among the heads again (forced by the insufficient-heads fallback), so a
sensor can be selected as head twice within its rotation cycle. -/
theorem C4_counterexample :
    (leachCluster [] leach3 leachCfg 0).1.map (fun c => c.headId) = [0, 1] ∧
    lookupNode (leachCluster [] leach3 leachCfg 0).2 0 = some ⟨true, 0⟩ ∧
    leachCycle (leachK (min leachCfg.numClusters leach3.length) leach3.length) = 2 ∧
    (1 : ℤ) - (2 : ℤ) ≤ 0 ∧
    (leachCluster (leachCluster [] leach3 leachCfg 0).2 leach3 leachCfg 1).1.map
      (fun c => c.headId) = [2, 0] := by
  refine ⟨?_, ?_, ?_, ?_, ?_⟩
  · with_unfolding_all decide
  · with_unfolding_all decide
  · with_unfolding_all decide
  · decide
  · with_unfolding_all decide

/-! ## C7: the error-extension pass equalizes series lengths and only
appends -/

theorem extendOne_spec (oracle : ℚ → ℚ → ℕ → Reading4)
    (dist : Sensor → Sensor → ℚ) (eps : ℚ) (estK : ℕ)
    (origSensors : List Sensor) (maxRounds : ℕ) (r : AlgoResult)
    (hr : r.estimationErrors.length = r.totalRounds)
    (hle : r.totalRounds ≤ maxRounds) :
    (extendOne oracle dist eps estK origSensors maxRounds r).estimationErrors.length =
      maxRounds ∧
    (∃ e, (extendOne oracle dist eps estK origSensors maxRounds r).estimationErrors =
      r.estimationErrors ++ e) ∧
    (extendOne oracle dist eps estK origSensors maxRounds r).history = r.history ∧
    (extendOne oracle dist eps estK origSensors maxRounds r).networkLifetime =
      r.networkLifetime := by
  unfold extendOne
  by_cases hlt : r.totalRounds < maxRounds
  · rw [if_pos hlt]
    refine ⟨?_, ⟨_, rfl⟩, rfl, rfl⟩
    rw [List.length_append, hr, List.length_map, List.length_range']
    omega
  · rw [if_neg hlt]
    refine ⟨?_, ⟨[], (List.append_nil _).symm⟩, rfl, rfl⟩
    omega

/-- C7: after `calculateExtendedErrors` runs at the maximum achieved round
count (as `runSimulation` invokes it), all three strategies' error series
have that same length; the extension only appends to a shorter series and
leaves its existing error entries and its RoundFrame history untouched. -/
theorem C7_error_extension (oracle : ℚ → ℚ → ℕ → Reading4)
    (dist : Sensor → Sensor → ℚ) (eps : ℚ) (estK : ℕ)
    (origSensors : List Sensor) (rk rl ri : AlgoResult)
    (hk : rk.estimationErrors.length = rk.totalRounds)
    (hl : rl.estimationErrors.length = rl.totalRounds)
    (hi : ri.estimationErrors.length = ri.totalRounds) :
    ((calculateExtendedErrors oracle dist eps estK origSensors rk rl ri
        (maxAchievedRounds rk rl ri)).1.estimationErrors.length =
          maxAchievedRounds rk rl ri ∧
      (calculateExtendedErrors oracle dist eps estK origSensors rk rl ri
        (maxAchievedRounds rk rl ri)).2.1.estimationErrors.length =
          maxAchievedRounds rk rl ri ∧
      (calculateExtendedErrors oracle dist eps estK origSensors rk rl ri
        (maxAchievedRounds rk rl ri)).2.2.estimationErrors.length =
          maxAchievedRounds rk rl ri) ∧
    ((∃ e, (calculateExtendedErrors oracle dist eps estK origSensors rk rl ri
        (maxAchievedRounds rk rl ri)).1.estimationErrors = rk.estimationErrors ++ e) ∧
      (∃ e, (calculateExtendedErrors oracle dist eps estK origSensors rk rl ri
        (maxAchievedRounds rk rl ri)).2.1.estimationErrors = rl.estimationErrors ++ e) ∧
      (∃ e, (calculateExtendedErrors oracle dist eps estK origSensors rk rl ri
        (maxAchievedRounds rk rl ri)).2.2.estimationErrors = ri.estimationErrors ++ e)) ∧
    ((calculateExtendedErrors oracle dist eps estK origSensors rk rl ri
        (maxAchievedRounds rk rl ri)).1.history = rk.history ∧
      (calculateExtendedErrors oracle dist eps estK origSensors rk rl ri
        (maxAchievedRounds rk rl ri)).2.1.history = rl.history ∧
      (calculateExtendedErrors oracle dist eps estK origSensors rk rl ri
        (maxAchievedRounds rk rl ri)).2.2.history = ri.history) := by
  have hmk : rk.totalRounds ≤ maxAchievedRounds rk rl ri := by
    unfold maxAchievedRounds
    omega
  have hml : rl.totalRounds ≤ maxAchievedRounds rk rl ri := by
    unfold maxAchievedRounds
    omega
  have hmi : ri.totalRounds ≤ maxAchievedRounds rk rl ri := by
    unfold maxAchievedRounds
    omega
  obtain ⟨k1, k2, k3, -⟩ := extendOne_spec oracle dist eps estK origSensors
    (maxAchievedRounds rk rl ri) rk hk hmk
  obtain ⟨l1, l2, l3, -⟩ := extendOne_spec oracle dist eps estK origSensors
    (maxAchievedRounds rk rl ri) rl hl hml
  obtain ⟨i1, i2, i3, -⟩ := extendOne_spec oracle dist eps estK origSensors
    (maxAchievedRounds rk rl ri) ri hi hmi
  exact ⟨⟨k1, l1, i1⟩, ⟨k2, l2, i2⟩, ⟨k3, l3, i3⟩⟩

/-- Witness for C7: one strategy ended after 2 rounds with two recorded
errors, the other two ended immediately; after extension all series have
length 2 and the original entries are preserved as prefixes. -/
theorem C7_error_extension_witness :
    (algResA.estimationErrors.length = algResA.totalRounds ∧
      algResA.estimationErrors.length = algResA.totalRounds ∧
      algResB.estimationErrors.length = algResB.totalRounds) ∧
    (calculateExtendedErrors constOracle distSq (1/10000) 6 sensors3
        algResA algResA algResB
        (maxAchievedRounds algResA algResA algResB)).1.estimationErrors.length =
      maxAchievedRounds algResA algResA algResB :=
  ⟨⟨by decide, by decide, by decide⟩,
    (C7_error_extension constOracle distSq (1/10000) 6 sensors3
      algResA algResA algResB
      (by decide) (by decide) (by decide)).1.1⟩

/-! ## C8: empty and singleton behaviour of the two clustering variants -/

theorem updateCentroids_length (sensors : List Sensor) (assigns : List ℕ)
    (k : ℕ) : (updateCentroids sensors assigns k).length = k := by
  simp [updateCentroids]

theorem natCeilSqrt_pos (k : ℕ) (hk : 1 ≤ k) : 1 ≤ natCeilSqrt k := by
  unfold natCeilSqrt
  by_cases h : Nat.sqrt k * Nat.sqrt k = k
  · rw [if_pos h]
    by_contra hcon
    have : Nat.sqrt k = 0 := by omega
    rw [this] at h
    omega
  · rw [if_neg h]
    omega

theorem initializeCentroids_length (k : ℕ) (cfg : Config) (hk : 1 ≤ k) :
    (initializeCentroids k cfg).length = k := by
  unfold initializeCentroids
  rw [List.length_take]
  have hcols : 1 ≤ natCeilSqrt k := natCeilSqrt_pos k hk
  have hflat : ∀ (rows cols : ℕ) (f : ℕ → ℕ → Centroid),
      ((List.range rows).flatMap (fun row => (List.range cols).map (f row))).length =
        rows * cols := by
    intro rows cols f
    induction rows with
    | zero => simp
    | succ r ihr =>
      rw [List.range_succ, List.flatMap_append]
      simp only [List.length_append, ihr]
      simp [Nat.succ_mul]
  rw [hflat]
  have hdiv := Nat.div_add_mod (k + natCeilSqrt k - 1) (natCeilSqrt k)
  have hmod := Nat.mod_lt (k + natCeilSqrt k - 1) (show 0 < natCeilSqrt k by omega)
  have hcomm : (k + natCeilSqrt k - 1) / natCeilSqrt k * natCeilSqrt k =
      natCeilSqrt k * ((k + natCeilSqrt k - 1) / natCeilSqrt k) := Nat.mul_comm _ _
  omega

theorem mem_enumFrom_lt {α : Type} :
    ∀ (l : List α) (n : ℕ) (p : ℕ × α), p ∈ List.enumFrom n l → p.1 < n + l.length := by
  intro l
  induction l with
  | nil =>
    intro n p hp
    simp at hp
  | cons a t ih =>
    intro n p hp
    rcases List.mem_cons.mp hp with h | h
    · rw [h]
      simp
    · have := ih (n + 1) p h
      simp only [List.length_cons]
      omega

theorem mem_enum_lt {α : Type} (l : List α) (p : ℕ × α) (hp : p ∈ l.enum) :
    p.1 < l.length := by
  have := mem_enumFrom_lt l 0 p hp
  omega

theorem argmin_fold_lt {α : Type} (key : α → ℚ) (l : List α) (hl : l ≠ []) :
    (l.enum.foldl (fun (acc : ℕ × Option ℚ) (ic : ℕ × α) =>
      let d := key ic.2
      match acc.2 with
      | none => (ic.1, some d)
      | some md => if d < md then (ic.1, some d) else acc)
      ((0 : ℕ), (none : Option ℚ))).1 < l.length := by
  have hstep : ∀ (b : ℕ × Option ℚ) (a : ℕ × α), a ∈ l.enum →
      (b.1 < l.length ∨ b.1 = 0) →
      (((fun (acc : ℕ × Option ℚ) (ic : ℕ × α) =>
        let d := key ic.2
        match acc.2 with
        | none => (ic.1, some d)
        | some md => if d < md then (ic.1, some d) else acc) b a).1 < l.length ∨
      ((fun (acc : ℕ × Option ℚ) (ic : ℕ × α) =>
        let d := key ic.2
        match acc.2 with
        | none => (ic.1, some d)
        | some md => if d < md then (ic.1, some d) else acc) b a).1 = 0) := by
    intro b a ha hb
    simp only
    cases b.2 with
    | none => exact Or.inl (mem_enum_lt l a ha)
    | some md =>
      by_cases hd : key a.2 < md
      · simp only [hd, if_true]
        exact Or.inl (mem_enum_lt l a ha)
      · simp only [hd, if_false]
        exact hb
  have hfold := @foldl_invariant (ℕ × Option ℚ) (ℕ × α)
    (fun (acc : ℕ × Option ℚ) (ic : ℕ × α) =>
      let d := key ic.2
      match acc.2 with
      | none => (ic.1, some d)
      | some md => if d < md then (ic.1, some d) else acc)
    (fun acc => acc.1 < l.length ∨ acc.1 = 0)
    l.enum ((0 : ℕ), (none : Option ℚ)) (Or.inr rfl)
    (fun b a ha hb => hstep b a ha hb)
  have hlen : 0 < l.length := by
    cases l with
    | nil => exact absurd rfl hl
    | cons x t => simp
  rcases hfold with h | h
  · exact h
  · rw [h]
    exact hlen

theorem nearestCentroidIdx_lt (s : Sensor) (c : List Centroid) (hc : c ≠ []) :
    nearestCentroidIdx s c < c.length := by
  unfold nearestCentroidIdx
  exact argmin_fold_lt (fun x => scDistSq s x) c hc

theorem kmeansLoop_spec (sensors : List Sensor) (k : ℕ) :
    ∀ (fuel : ℕ) (cents : List Centroid) (assigns : List ℕ),
      cents.length = k →
      (fuel = 0 ∧ kmeansLoop sensors k fuel cents assigns = (assigns, cents)) ∨
      ∃ c : List Centroid, c.length = k ∧
        (kmeansLoop sensors k fuel cents assigns).1 =
          assignSensorsToCentroids sensors c := by
  intro fuel
  induction fuel with
  | zero => exact fun cents assigns _ => Or.inl ⟨rfl, rfl⟩
  | succ fuel ih =>
    intro cents assigns hc
    right
    have hunfold : kmeansLoop sensors k (fuel + 1) cents assigns =
        if hasConverged cents (updateCentroids sensors
            (assignSensorsToCentroids sensors cents) k) then
          (assignSensorsToCentroids sensors cents,
            updateCentroids sensors (assignSensorsToCentroids sensors cents) k)
        else kmeansLoop sensors k fuel
          (updateCentroids sensors (assignSensorsToCentroids sensors cents) k)
          (assignSensorsToCentroids sensors cents) := rfl
    rw [hunfold]
    by_cases hcv : hasConverged cents (updateCentroids sensors
        (assignSensorsToCentroids sensors cents) k) = true
    · rw [if_pos hcv]
      exact ⟨cents, hc, rfl⟩
    · rw [if_neg hcv]
      rcases ih (updateCentroids sensors (assignSensorsToCentroids sensors cents) k)
        (assignSensorsToCentroids sensors cents)
        (updateCentroids_length sensors _ k) with ⟨-, heq⟩ | ⟨c, hc', h⟩
      · rw [heq]
        exact ⟨cents, hc, rfl⟩
      · exact ⟨c, hc', h⟩

theorem createClusters_ne_nil (sensors : List Sensor) (assigns : List ℕ)
    (cents : List Centroid) (k : ℕ) (a : Sensor) (arest : List Sensor)
    (v : ℕ) (vs : List ℕ) (hs : sensors = a :: arest) (hv : assigns = v :: vs)
    (hvk : v < k) :
    createClusters sensors assigns cents k ≠ [] := by
  intro hcon
  unfold createClusters at hcon
  rw [List.filterMap_eq_nil_iff] at hcon
  have hvmem := hcon v (List.mem_range.mpr hvk)
  have hamem : a ∈ ((sensors.zip assigns).filter (fun sa => sa.2 = v)).map
      (fun sa => sa.1) := by
    rw [hs, hv]
    have hzip : ((a :: arest).zip (v :: vs)) = (a, v) :: arest.zip vs := rfl
    rw [hzip]
    rw [List.filter_cons_of_pos (by simp)]
    simp
  cases hml : ((sensors.zip assigns).filter (fun sa => sa.2 = v)).map
      (fun sa => sa.1) with
  | nil =>
    rw [hml] at hamem
    exact absurd hamem (List.not_mem_nil a)
  | cons m ms =>
    rw [hml] at hvmem
    exact Option.noConfusion hvmem

theorem kmeansCluster_ne_nil (sensors : List Sensor) (cfg : Config)
    (hk : 1 ≤ cfg.numClusters) (a : Sensor) (rest : List Sensor)
    (halive : sensors.filter (fun s => 0 < s.energy) = a :: rest) :
    kmeansCluster sensors cfg ≠ [] := by
  simp only [kmeansCluster]
  rw [halive]
  rw [dif_neg (by simp : ¬((a :: rest : List Sensor) = []))]
  by_cases hk0 : min cfg.numClusters (a :: rest).length = 0
  · exfalso
    have : 0 < (a :: rest : List Sensor).length := by simp
    omega
  · rw [if_neg hk0]
    by_cases h1 : min cfg.numClusters (a :: rest).length = 1 ∨
        (a :: rest : List Sensor).length = 1
    · rw [if_pos h1]
      simp
    · rw [if_neg h1]
      have hklen : 1 ≤ min cfg.numClusters (a :: rest).length := by omega
      rcases kmeansLoop_spec (a :: rest) (min cfg.numClusters (a :: rest).length)
        100 (initializeCentroids (min cfg.numClusters (a :: rest).length) cfg)
        (List.replicate (a :: rest).length 0)
        (initializeCentroids_length _ cfg hklen) with ⟨hz, -⟩ | ⟨c, hclen, hassign⟩
      · exact absurd hz (by omega)
      · have hcne : c ≠ [] := by
          intro hcn
          rw [hcn] at hclen
          simp at hclen
          omega
        have hform : assignSensorsToCentroids (a :: rest) c =
            nearestCentroidIdx a c :: (rest.map (fun s => nearestCentroidIdx s c)) := rfl
        apply createClusters_ne_nil (a :: rest) _ _ _ a rest
          (nearestCentroidIdx a c) (rest.map (fun s => nearestCentroidIdx s c)) rfl
          (by rw [hassign, hform])
        rw [← hclen]
        exact nearestCentroidIdx_lt a c hcne

theorem updateAt_length (f : α → α) :
    ∀ (n : ℕ) (l : List α), (updateAt f n l).length = l.length := by
  intro n l
  induction l generalizing n with
  | nil => cases n <;> rfl
  | cons a t ih =>
    cases n with
    | zero => simp [updateAt]
    | succ m => simp [updateAt, ih m]

theorem updateAt_getElem? (f : α → α) :
    ∀ (n : ℕ) (l : List α) (i : ℕ),
      (updateAt f n l)[i]? = if n = i then (l[i]?).map f else l[i]? := by
  intro n l
  induction l generalizing n with
  | nil =>
    intro i
    cases n <;> simp [updateAt]
  | cons a t ih =>
    intro i
    cases n with
    | zero =>
      cases i with
      | zero => simp [updateAt]
      | succ j => simp [updateAt]
    | succ m =>
      cases i with
      | zero => simp [updateAt]
      | succ j =>
        simp only [updateAt, List.getElem?_cons_succ]
        rw [ih m j]
        by_cases hm : m = j
        · simp [hm]
        · rw [if_neg hm, if_neg (fun hh => hm (Nat.succ_injective hh))]

theorem formClusters_ne_nil (allSensors : List Sensor) (h0 : Sensor)
    (hrest : List Sensor) : formClusters allSensors (h0 :: hrest) ≠ [] := by
  show (((allSensors.filter
      (fun s => ¬ ((h0 :: hrest).map (fun h => h.id)).contains s.id)).foldl
      (fun cls s => updateAt (fun c => { c with members := c.members ++ [s] })
        (nearestHeadIdx (h0 :: hrest) s) cls)
      ((h0 :: hrest).enum.map
        (fun ic => (⟨ic.1, ic.2.id, [ic.2], none⟩ : Cluster)))).filter
      (fun c => ¬ c.members.isEmpty)) ≠ []
  have hbaselen : ((h0 :: hrest).enum.map
      (fun ic => (⟨ic.1, ic.2.id, [ic.2], none⟩ : Cluster))).length =
      hrest.length + 1 := by
    simp
  have hbasemem : ∀ (i : ℕ) (h1 : i < ((h0 :: hrest).enum.map
      (fun ic => (⟨ic.1, ic.2.id, [ic.2], none⟩ : Cluster))).length),
      (((h0 :: hrest).enum.map
        (fun ic => (⟨ic.1, ic.2.id, [ic.2], none⟩ : Cluster)))[i]).members ≠ [] := by
    intro i h1
    rw [List.getElem_map]
    simp
  have hfill := @foldl_invariant (List Cluster) Sensor
    (fun cls s => updateAt (fun c => { c with members := c.members ++ [s] })
      (nearestHeadIdx (h0 :: hrest) s) cls)
    (fun cls : List Cluster => cls.length = hrest.length + 1 ∧
      ∀ (i : ℕ) (h1 : i < cls.length), cls[i].members ≠ [])
    (allSensors.filter (fun s => ¬ ((h0 :: hrest).map (fun h => h.id)).contains s.id))
    ((h0 :: hrest).enum.map (fun ic => (⟨ic.1, ic.2.id, [ic.2], none⟩ : Cluster)))
    ⟨hbaselen, hbasemem⟩ ?_
  · obtain ⟨hflen, hfmem⟩ := hfill
    have hpos : 0 < (((allSensors.filter
        (fun s => ¬ ((h0 :: hrest).map (fun h => h.id)).contains s.id)).foldl
        (fun cls s => updateAt (fun c => { c with members := c.members ++ [s] })
          (nearestHeadIdx (h0 :: hrest) s) cls)
        ((h0 :: hrest).enum.map
          (fun ic => (⟨ic.1, ic.2.id, [ic.2], none⟩ : Cluster))))).length := by
      rw [hflen]
      omega
    intro hcon
    have hmem0 := hfmem 0 hpos
    have hin : (((allSensors.filter
        (fun s => ¬ ((h0 :: hrest).map (fun h => h.id)).contains s.id)).foldl
        (fun cls s => updateAt (fun c => { c with members := c.members ++ [s] })
          (nearestHeadIdx (h0 :: hrest) s) cls)
        ((h0 :: hrest).enum.map
          (fun ic => (⟨ic.1, ic.2.id, [ic.2], none⟩ : Cluster)))))[0] ∈
        (((allSensors.filter
        (fun s => ¬ ((h0 :: hrest).map (fun h => h.id)).contains s.id)).foldl
        (fun cls s => updateAt (fun c => { c with members := c.members ++ [s] })
          (nearestHeadIdx (h0 :: hrest) s) cls)
        ((h0 :: hrest).enum.map
          (fun ic => (⟨ic.1, ic.2.id, [ic.2], none⟩ : Cluster))))).filter
        (fun c => ¬ c.members.isEmpty) := by
      refine List.mem_filter.mpr ⟨List.getElem_mem hpos, ?_⟩
      simp only [decide_eq_true_eq]
      intro hemp
      exact hmem0 (List.isEmpty_iff.mp hemp)
    rw [hcon] at hin
    exact absurd hin (List.not_mem_nil _)
  · intro cls s hs hcls
    obtain ⟨hlen, hmem⟩ := hcls
    refine ⟨by rw [updateAt_length, hlen], ?_⟩
    intro i h1
    have h1' : i < cls.length := by
      rw [updateAt_length] at h1
      exact h1
    have hg := updateAt_getElem? (fun c => { c with members := c.members ++ [s] })
      (nearestHeadIdx (h0 :: hrest) s) cls i
    rw [List.getElem?_eq_getElem h1, List.getElem?_eq_getElem h1'] at hg
    by_cases hn : nearestHeadIdx (h0 :: hrest) s = i
    · rw [if_pos hn, Option.map_some'] at hg
      rw [Option.some_injective _ hg]
      simp only
      intro happ
      exact absurd happ (List.append_ne_nil_of_right_ne_nil _ (by simp))
    · rw [if_neg hn] at hg
      rw [Option.some_injective _ hg]
      exact hmem i h1'

theorem leachCluster_ne_nil (st : LeachState) (sensors : List Sensor)
    (cfg : Config) (rnd : ℕ) (a : Sensor) (rest : List Sensor)
    (halive : sensors.filter (fun s => 0 < s.energy) = a :: rest) :
    (leachCluster st sensors cfg rnd).1 ≠ [] := by
  simp only [leachCluster]
  rw [halive]
  rw [dif_neg (by simp : ¬((a :: rest : List Sensor) = []))]
  by_cases hsel : (selectClusterHeads (updateNodeTracking st (a :: rest)) (a :: rest)
      rnd (min cfg.numClusters (a :: rest).length)
      (leachK (min cfg.numClusters (a :: rest).length) (a :: rest).length)
      (leachCycle (leachK (min cfg.numClusters (a :: rest).length)
        (a :: rest).length))).1.isEmpty
  · rw [if_pos hsel]
    exact formClusters_ne_nil _ _ _
  · rw [if_neg hsel]
    cases hh : (selectClusterHeads (updateNodeTracking st (a :: rest)) (a :: rest)
        rnd (min cfg.numClusters (a :: rest).length)
        (leachK (min cfg.numClusters (a :: rest).length) (a :: rest).length)
        (leachCycle (leachK (min cfg.numClusters (a :: rest).length)
          (a :: rest).length))).1 with
    | nil =>
      rw [hh] at hsel
      exact absurd rfl hsel
    | cons hd tl =>
      show formClusters (a :: rest) (hd :: tl) ≠ []
      exact formClusters_ne_nil _ _ _

theorem selectHeadsSingleAux (st2 : LeachState) (s : Sensor) (rnd : ℕ)
    (p : ℚ) :
    (leachFallback [s] 1 rnd 1 (leachPhase1 st2 [(s, p)] 1 rnd)).1 = [s] := by
  by_cases hp : 0 < p
  · have h1 : leachPhase1 st2 [(s, p)] 1 rnd =
        ([s], setNode st2 s.id ⟨true, (rnd : ℤ)⟩) := by
      show (if 0 < p then (([s] : List Sensor),
          setNode st2 s.id ⟨true, (rnd : ℤ)⟩) else ([], st2)) =
        ([s], setNode st2 s.id ⟨true, (rnd : ℤ)⟩)
      rw [if_pos hp]
    rw [h1]
    rfl
  · have h1 : leachPhase1 st2 [(s, p)] 1 rnd = ([], st2) := by
      show (if 0 < p then (([s] : List Sensor),
          setNode st2 s.id ⟨true, (rnd : ℤ)⟩) else ([], st2)) = ([], st2)
      rw [if_neg hp]
    rw [h1]
    rfl

theorem selectClusterHeads_single (st1 : LeachState) (s : Sensor) (rnd : ℕ)
    (k : ℚ) (cycle : ℕ) :
    (selectClusterHeads st1 [s] rnd 1 k cycle).1 = [s] :=
  selectHeadsSingleAux
    (setNode st1 s.id (calcProb ((lookupNode st1 s.id).getD ⟨false, -1⟩)
      s.energy rnd k cycle).2) s rnd
    (calcProb ((lookupNode st1 s.id).getD ⟨false, -1⟩) s.energy rnd k cycle).1

theorem leachCluster_single (st : LeachState) (sensors : List Sensor)
    (cfg : Config) (rnd : ℕ) (hk : 1 ≤ cfg.numClusters) (s : Sensor)
    (halive : sensors.filter (fun x => 0 < x.energy) = [s]) :
    (leachCluster st sensors cfg rnd).1 = [⟨0, s.id, [s], none⟩] := by
  simp only [leachCluster]
  rw [halive]
  rw [dif_neg (by simp : ¬(([s] : List Sensor) = []))]
  have hdes : min cfg.numClusters ([s] : List Sensor).length = 1 := by
    simp only [List.length_singleton]
    omega
  rw [hdes]
  rw [selectClusterHeads_single]
  have hne : (([s] : List Sensor).isEmpty) = false := rfl
  simp only [hne, Bool.false_eq_true, if_false]
  show formClusters [s] [s] = [⟨0, s.id, [s], none⟩]
  simp [formClusters]

theorem kmeansCluster_single (sensors : List Sensor) (cfg : Config)
    (hk : 1 ≤ cfg.numClusters) (s : Sensor)
    (halive : sensors.filter (fun x => 0 < x.energy) = [s]) :
    kmeansCluster sensors cfg = [⟨0, s.id, [s], none⟩] := by
  simp only [kmeansCluster]
  rw [halive]
  rw [dif_neg (by simp : ¬(([s] : List Sensor) = []))]
  have hk0 : ¬(min cfg.numClusters ([s] : List Sensor).length = 0) := by
    simp only [List.length_singleton]
    omega
  rw [if_neg hk0]
  rw [if_pos (Or.inr (by simp : ([s] : List Sensor).length = 1))]
  rfl

theorem kmeansCluster_one_cluster (sensors : List Sensor) (cfg : Config)
    (h1 : cfg.numClusters = 1) (a : Sensor) (rest : List Sensor)
    (halive : sensors.filter (fun x => 0 < x.energy) = a :: rest) :
    kmeansCluster sensors cfg = [⟨0, a.id, a :: rest, none⟩] := by
  simp only [kmeansCluster]
  rw [halive, h1]
  rw [dif_neg (by simp : ¬((a :: rest : List Sensor) = []))]
  have hmin : min 1 (a :: rest : List Sensor).length = 1 := by
    simp only [List.length_cons]
    omega
  rw [hmin]
  rw [if_neg (by omega : ¬(1 = 0))]
  rw [if_pos (Or.inl rfl)]
  rfl

/-- C8: both clustering variants return the empty cluster list exactly when
no input sensor is alive; a lone alive survivor yields a single cluster
headed by it in both variants; and requesting a single cluster from the
centroid-based variant yields one cluster headed by the first alive
sensor.  The hypothesis `1 ≤ numClusters` is the valid-configuration
contract. -/
theorem C8_empty_and_singleton (cfg : Config) (sensors : List Sensor)
    (st : LeachState) (rnd : ℕ) (hk : 1 ≤ cfg.numClusters) :
    (kmeansCluster sensors cfg = [] ↔ sensors.filter (fun s => 0 < s.energy) = []) ∧
    ((leachCluster st sensors cfg rnd).1 = [] ↔
      sensors.filter (fun s => 0 < s.energy) = []) ∧
    (∀ s, sensors.filter (fun x => 0 < x.energy) = [s] →
      kmeansCluster sensors cfg = [⟨0, s.id, [s], none⟩] ∧
      (leachCluster st sensors cfg rnd).1 = [⟨0, s.id, [s], none⟩]) ∧
    (cfg.numClusters = 1 → ∀ a rest, sensors.filter (fun x => 0 < x.energy) = a :: rest →
      kmeansCluster sensors cfg = [⟨0, a.id, a :: rest, none⟩]) := by
  refine ⟨⟨?_, ?_⟩, ⟨?_, ?_⟩, ?_, ?_⟩
  · intro hnil
    by_contra hcon
    cases halive : sensors.filter (fun s => 0 < s.energy) with
    | nil => exact hcon halive
    | cons a rest => exact kmeansCluster_ne_nil sensors cfg hk a rest halive hnil
  · intro halive
    simp only [kmeansCluster]
    rw [halive]
    rfl
  · intro hnil
    by_contra hcon
    cases halive : sensors.filter (fun s => 0 < s.energy) with
    | nil => exact hcon halive
    | cons a rest => exact leachCluster_ne_nil st sensors cfg rnd a rest halive hnil
  · intro halive
    simp only [leachCluster]
    rw [halive]
    rfl
  · intro s halive
    exact ⟨kmeansCluster_single sensors cfg hk s halive,
      leachCluster_single st sensors cfg rnd hk s halive⟩
  · intro h1 a rest halive
    exact kmeansCluster_one_cluster sensors cfg h1 a rest halive

theorem runLoopAux_nodes_generic (n1 n2 : LeachState) (alive : EngState → Bool)
    (B : ℕ → EngState → List Frame → EngState × Frame × ℚ)
    (halive : ∀ sen lcr lk, alive ⟨sen, lcr, lk, n1⟩ = alive ⟨sen, lcr, lk, n2⟩)
    (hB : ∀ rnd sen lcr lk hist, ∃ S L K F E,
      B rnd ⟨sen, lcr, lk, n1⟩ hist = (⟨S, L, K, n1⟩, F, E) ∧
      B rnd ⟨sen, lcr, lk, n2⟩ hist = (⟨S, L, K, n2⟩, F, E)) :
    ∀ (rem rnd : ℕ) (sen : List Sensor) (lcr : ℤ) (lk : ℕ → Option SData)
      (hist : List Frame) (errs : List ℚ) (lt : ℕ),
      runLoopAux alive B rem rnd ⟨sen, lcr, lk, n1⟩ hist errs lt =
        ⟨(runLoopAux alive B rem rnd ⟨sen, lcr, lk, n2⟩ hist errs lt).history,
         (runLoopAux alive B rem rnd ⟨sen, lcr, lk, n2⟩ hist errs lt).estimationErrors,
         (runLoopAux alive B rem rnd ⟨sen, lcr, lk, n2⟩ hist errs lt).networkLifetime,
         (runLoopAux alive B rem rnd ⟨sen, lcr, lk, n2⟩ hist errs lt).totalRounds,
         ⟨(runLoopAux alive B rem rnd ⟨sen, lcr, lk, n2⟩ hist errs lt).finalState.sensors,
          (runLoopAux alive B rem rnd ⟨sen, lcr, lk, n2⟩ hist errs lt).finalState.lastClusteringRound,
          (runLoopAux alive B rem rnd ⟨sen, lcr, lk, n2⟩ hist errs lt).finalState.lastKnown,
          n1⟩⟩ := by
  intro rem
  induction rem with
  | zero =>
    intro rnd sen lcr lk hist errs lt
    rfl
  | succ r ih =>
    intro rnd sen lcr lk hist errs lt
    obtain ⟨S, L, K, F, E, h1, h2⟩ := hB rnd sen lcr lk hist
    by_cases ha : alive ⟨sen, lcr, lk, n2⟩ = true
    · have ha1 : alive ⟨sen, lcr, lk, n1⟩ = true := by
        rw [halive sen lcr lk]
        exact ha
      have e1 : runLoopAux alive B (r + 1) rnd ⟨sen, lcr, lk, n1⟩ hist errs lt =
          runLoopAux alive B r (rnd + 1) ⟨S, L, K, n1⟩ (hist ++ [F]) (errs ++ [E]) lt := by
        rw [runLoopAux]
        rw [if_pos ha1]
        rw [h1]
      have e2 : runLoopAux alive B (r + 1) rnd ⟨sen, lcr, lk, n2⟩ hist errs lt =
          runLoopAux alive B r (rnd + 1) ⟨S, L, K, n2⟩ (hist ++ [F]) (errs ++ [E]) lt := by
        rw [runLoopAux]
        rw [if_pos ha]
        rw [h2]
      rw [e1, e2]
      exact ih (rnd + 1) S L K (hist ++ [F]) (errs ++ [E]) lt
    · have ha1 : ¬ (alive ⟨sen, lcr, lk, n1⟩ = true) := by
        rw [halive sen lcr lk]
        exact ha
      have e1 : runLoopAux alive B (r + 1) rnd ⟨sen, lcr, lk, n1⟩ hist errs lt =
          ⟨hist, errs, if lt = 0 then rnd else lt, rnd, ⟨sen, lcr, lk, n1⟩⟩ := by
        rw [runLoopAux]
        rw [if_neg ha1]
      have e2 : runLoopAux alive B (r + 1) rnd ⟨sen, lcr, lk, n2⟩ hist errs lt =
          ⟨hist, errs, if lt = 0 then rnd else lt, rnd, ⟨sen, lcr, lk, n2⟩⟩ := by
        rw [runLoopAux]
        rw [if_neg ha]
      rw [e1, e2]

/-- C9 counterexample: with the three-sensor layout and the two-cluster
configuration, a first LEACH run (fresh node map) elects heads 0 and 1;
a second invocation on the exact same pristine layout and configuration,
through the same algorithm instance (whose persistent node map the engine
never clears), elects heads 2 and 0 — so the two histories differ. -/
theorem C9_counterexample :
    (engineRunSingle .leach leachCfg constOracle distSq (1/10000) 6 leach3 []
        1).history.map (fun f => f.clusters.map (fun c => c.headId)) = [[0, 1]] ∧
    (engineRunSingle .leach leachCfg constOracle distSq (1/10000) 6 leach3
        (engineRunSingle .leach leachCfg constOracle distSq (1/10000) 6 leach3 []
          1).finalState.leachNodes 1).history.map
      (fun f => f.clusters.map (fun c => c.headId)) = [[2, 0]] ∧
    (engineRunSingle .leach leachCfg constOracle distSq (1/10000) 6 leach3 []
        1).history ≠
      (engineRunSingle .leach leachCfg constOracle distSq (1/10000) 6 leach3
        (engineRunSingle .leach leachCfg constOracle distSq (1/10000) 6 leach3 []
          1).finalState.leachNodes 1).history := by
  refine ⟨?_, ?_, ?_⟩ <;> with_unfolding_all decide

/-- C9 amended: a run is a deterministic function of the layout, the
configuration and the persistent LEACH node map; the centroid-based
strategy never reads or writes that map, so its history, error series,
lifetime and round count are identical across any two runs on the same
layout and configuration regardless of the map state the engine instance
carries. -/
theorem C9_amended_kmeans_determinism (cfg : Config)
    (oracle : ℚ → ℚ → ℕ → Reading4) (dist : Sensor → Sensor → ℚ) (eps : ℚ)
    (estK : ℕ) (pristine : List Sensor) (nodes1 nodes2 : LeachState)
    (maxRounds : ℕ) :
    (engineRunSingle .kmeans cfg oracle dist eps estK pristine nodes1 maxRounds).history =
      (engineRunSingle .kmeans cfg oracle dist eps estK pristine nodes2 maxRounds).history ∧
    (engineRunSingle .kmeans cfg oracle dist eps estK pristine nodes1 maxRounds).estimationErrors =
      (engineRunSingle .kmeans cfg oracle dist eps estK pristine nodes2 maxRounds).estimationErrors ∧
    (engineRunSingle .kmeans cfg oracle dist eps estK pristine nodes1 maxRounds).networkLifetime =
      (engineRunSingle .kmeans cfg oracle dist eps estK pristine nodes2 maxRounds).networkLifetime ∧
    (engineRunSingle .kmeans cfg oracle dist eps estK pristine nodes1 maxRounds).totalRounds =
      (engineRunSingle .kmeans cfg oracle dist eps estK pristine nodes2 maxRounds).totalRounds := by
  have h := runLoopAux_nodes_generic nodes1 nodes2 engAlive
    (roundBody .kmeans cfg oracle dist eps estK pristine)
    (fun sen lcr lk => rfl)
    (fun rnd sen lcr lk hist =>
      ⟨(roundBody .kmeans cfg oracle dist eps estK pristine rnd
          ⟨sen, lcr, lk, nodes2⟩ hist).1.sensors,
       (roundBody .kmeans cfg oracle dist eps estK pristine rnd
          ⟨sen, lcr, lk, nodes2⟩ hist).1.lastClusteringRound,
       (roundBody .kmeans cfg oracle dist eps estK pristine rnd
          ⟨sen, lcr, lk, nodes2⟩ hist).1.lastKnown,
       (roundBody .kmeans cfg oracle dist eps estK pristine rnd
          ⟨sen, lcr, lk, nodes2⟩ hist).2.1,
       (roundBody .kmeans cfg oracle dist eps estK pristine rnd
          ⟨sen, lcr, lk, nodes2⟩ hist).2.2,
       rfl, rfl⟩)
    maxRounds 0 pristine (-1) (fun _ => none) [] [] 0
  refine ⟨?_, ?_, ?_, ?_⟩ <;>
    simp only [engineRunSingle, runLoop, h]

/-- Witness for C8: the three-sensor layout with two requested clusters,
and a lone-survivor layout. -/
theorem C8_empty_and_singleton_witness :
    (1 ≤ leachCfg.numClusters ∧
      ([⟨7, 5, 5, 10, false⟩] : List Sensor).filter (fun x => 0 < x.energy) =
        [⟨7, 5, 5, 10, false⟩]) ∧
    ((kmeansCluster sensors3 leachCfg = [] ↔
        sensors3.filter (fun s => 0 < s.energy) = []) ∧
      kmeansCluster [⟨7, 5, 5, 10, false⟩] leachCfg =
        [⟨0, 7, [⟨7, 5, 5, 10, false⟩], none⟩] ∧
      (leachCluster [] [⟨7, 5, 5, 10, false⟩] leachCfg 0).1 =
        [⟨0, 7, [⟨7, 5, 5, 10, false⟩], none⟩]) :=
  ⟨⟨by decide, by with_unfolding_all decide⟩,
    (C8_empty_and_singleton leachCfg sensors3 [] 0 (by decide)).1,
    ((C8_empty_and_singleton leachCfg [⟨7, 5, 5, 10, false⟩] [] 0 (by decide)).2.2.1
      ⟨7, 5, 5, 10, false⟩ (by with_unfolding_all decide)).1,
    ((C8_empty_and_singleton leachCfg [⟨7, 5, 5, 10, false⟩] [] 0 (by decide)).2.2.1
      ⟨7, 5, 5, 10, false⟩ (by with_unfolding_all decide)).2⟩

theorem round2_int_mul (v : ℝ) : ∃ n : ℤ, round2 v = (n : ℝ) / 100 :=
  ⟨round (v * 100), rfl⟩

theorem round2_dist (v : ℝ) : |round2 v - v| ≤ 1 / 200 := by
  have h := abs_sub_round (v * 100)
  have e : round2 v - v = -((v * 100 - ((round (v * 100) : ℤ) : ℝ)) / 100) := by
    unfold round2
    ring
  rw [e, abs_neg, abs_div]
  have h100 : |(100 : ℝ)| = 100 := by norm_num
  rw [h100]
  linarith

/-- C10: each field of the reading returned by `getSensorData` is the
clamped raw value rounded to the nearest hundredth: it is an integer
number of hundredths and lies within half a hundredth of the clamped
value, for every configuration, position and round. -/
theorem C10_hundredth_quantization (cfg : EnvConfig) (x y : ℝ) (rnd : ℕ) :
    ((envGetSensorData cfg x y rnd).salinity =
        round2 ((getSensorDataRaw cfg x y rnd).salinity) ∧
      (envGetSensorData cfg x y rnd).pressure =
        round2 ((getSensorDataRaw cfg x y rnd).pressure) ∧
      (envGetSensorData cfg x y rnd).temperature =
        round2 ((getSensorDataRaw cfg x y rnd).temperature) ∧
      (envGetSensorData cfg x y rnd).ph =
        round2 ((getSensorDataRaw cfg x y rnd).ph)) ∧
    ((∃ n : ℤ, (envGetSensorData cfg x y rnd).salinity = (n : ℝ) / 100) ∧
      (∃ n : ℤ, (envGetSensorData cfg x y rnd).pressure = (n : ℝ) / 100) ∧
      (∃ n : ℤ, (envGetSensorData cfg x y rnd).temperature = (n : ℝ) / 100) ∧
      (∃ n : ℤ, (envGetSensorData cfg x y rnd).ph = (n : ℝ) / 100)) ∧
    (|(envGetSensorData cfg x y rnd).salinity -
        (getSensorDataRaw cfg x y rnd).salinity| ≤ 1 / 200 ∧
      |(envGetSensorData cfg x y rnd).pressure -
        (getSensorDataRaw cfg x y rnd).pressure| ≤ 1 / 200 ∧
      |(envGetSensorData cfg x y rnd).temperature -
        (getSensorDataRaw cfg x y rnd).temperature| ≤ 1 / 200 ∧
      |(envGetSensorData cfg x y rnd).ph -
        (getSensorDataRaw cfg x y rnd).ph| ≤ 1 / 200) :=
  ⟨⟨rfl, rfl, rfl, rfl⟩,
   ⟨round2_int_mul _, round2_int_mul _, round2_int_mul _, round2_int_mul _⟩,
   ⟨round2_dist _, round2_dist _, round2_dist _, round2_dist _⟩⟩

theorem noiseGenVal_abs_le (f a s x y t : ℝ) : |noiseGenVal f a s x y t| ≤ |a| := by
  unfold noiseGenVal
  rw [abs_mul]
  have h : |Real.sin (x * f + s) * Real.cos (y * f + s * 1.5) *
      Real.sin (t * f * 0.1 + s * 2)| ≤ 1 := by
    rw [abs_mul, abs_mul]
    exact mul_le_one₀
      (mul_le_one₀ (Real.abs_sin_le_one _) (abs_nonneg _) (Real.abs_cos_le_one _))
      (abs_nonneg _) (Real.abs_sin_le_one _)
  calc |Real.sin (x * f + s) * Real.cos (y * f + s * 1.5) *
      Real.sin (t * f * 0.1 + s * 2)| * |a| ≤ 1 * |a| :=
        mul_le_mul_of_nonneg_right h (abs_nonneg a)
    _ = |a| := one_mul _

theorem getNoise_pressure_abs_le (cfg : EnvConfig) (x y : ℝ) (rnd : ℕ) :
    |(getNoise cfg x y rnd).pressure| ≤
      (21 / 40) * |(cfg.maxPressure - cfg.minPressure) * 0.01| := by
  have he : (getNoise cfg x y rnd).pressure =
      (noiseGenVal 0.01 1 1234 x y (rnd : ℝ) * 0.3 +
       noiseGenVal 0.05 0.5 5678 x y (rnd : ℝ) * 0.3 +
       noiseGenVal 0.1 0.25 9012 x y (rnd : ℝ) * 0.3) *
      ((cfg.maxPressure - cfg.minPressure) * 0.01) := rfl
  rw [he, abs_mul]
  have h1 : |noiseGenVal 0.01 1 1234 x y (rnd : ℝ)| ≤ 1 := by
    have h := noiseGenVal_abs_le 0.01 1 1234 x y (rnd : ℝ)
    have e : |(1 : ℝ)| = 1 := by norm_num
    rw [e] at h
    exact h
  have h2 : |noiseGenVal 0.05 0.5 5678 x y (rnd : ℝ)| ≤ 0.5 := by
    have h := noiseGenVal_abs_le 0.05 0.5 5678 x y (rnd : ℝ)
    have e : |(0.5 : ℝ)| = 0.5 := by norm_num
    rw [e] at h
    exact h
  have h3 : |noiseGenVal 0.1 0.25 9012 x y (rnd : ℝ)| ≤ 0.25 := by
    have h := noiseGenVal_abs_le 0.1 0.25 9012 x y (rnd : ℝ)
    have e : |(0.25 : ℝ)| = 0.25 := by norm_num
    rw [e] at h
    exact h
  have htP : |noiseGenVal 0.01 1 1234 x y (rnd : ℝ) * 0.3 +
      noiseGenVal 0.05 0.5 5678 x y (rnd : ℝ) * 0.3 +
      noiseGenVal 0.1 0.25 9012 x y (rnd : ℝ) * 0.3| ≤ 21 / 40 := by
    obtain ⟨h1a, h1b⟩ := abs_le.mp h1
    obtain ⟨h2a, h2b⟩ := abs_le.mp h2
    obtain ⟨h3a, h3b⟩ := abs_le.mp h3
    apply abs_le.mpr
    constructor
    · linarith
    · linarith
  exact mul_le_mul_of_nonneg_right htP (abs_nonneg _)

theorem round2_mono {a b : ℝ} (h : a ≤ b) : round2 a ≤ round2 b := by
  unfold round2
  have hf : round (a * 100) ≤ round (b * 100) := by
    rw [round_eq, round_eq]
    exact Int.floor_mono (by linarith)
  have hc : ((round (a * 100) : ℤ) : ℝ) ≤ ((round (b * 100) : ℤ) : ℝ) := by
    exact_mod_cast hf
  linarith

theorem round2_idem_hundredth (n : ℤ) : round2 ((n : ℝ) / 100) = (n : ℝ) / 100 := by
  unfold round2
  rw [div_mul_cancel₀ _ (by norm_num : (100 : ℝ) ≠ 0)]
  rw [round_intCast]

theorem round2_clamp_mem (v : ℝ) {lo hi : ℝ} (h : lo ≤ hi)
    (h1 : ∃ n : ℤ, lo = (n : ℝ) / 100) (h2 : ∃ n : ℤ, hi = (n : ℝ) / 100) :
    lo ≤ round2 (clampR v lo hi) ∧ round2 (clampR v lo hi) ≤ hi := by
  obtain ⟨n, hn⟩ := h1
  obtain ⟨m, hm⟩ := h2
  constructor
  · have hmono := round2_mono (show lo ≤ clampR v lo hi from le_max_left _ _)
    calc lo = round2 lo := by rw [hn, round2_idem_hundredth]
      _ ≤ round2 (clampR v lo hi) := hmono
  · have hmono := round2_mono
      (show clampR v lo hi ≤ hi from max_le h (min_le_left _ _))
    calc round2 (clampR v lo hi) ≤ round2 hi := hmono
      _ = hi := by rw [hm, round2_idem_hundredth]

/-- C6 counterexample: with pressure range [0, 6.999] on a 100×100 field,
the reading at position (0, 100) in round 25 has its raw pressure clamped
to the maximum 6.999, and the final two-decimal rounding lifts it to 7,
strictly above the configured maximum. -/
theorem C6_counterexample :
    (envGetSensorData envCfgCex 0 100 25).pressure = 7 ∧
    envCfgCex.maxPressure < (envGetSensorData envCfgCex 0 100 25).pressure := by
  have hminP : envCfgCex.minPressure = 0 := rfl
  have hmaxP : envCfgCex.maxPressure = 6999 / 1000 := rfl
  have hgx : (⌊(0 : ℝ) / (envCfgCex.width / 20)⌋ : ℤ) = 0 := by
    have h : (0 : ℝ) / (envCfgCex.width / 20) = ((0 : ℤ) : ℝ) := by norm_num
    rw [h, Int.floor_intCast]
  have hgy : (⌊(100 : ℝ) / (envCfgCex.height / 20)⌋ : ℤ) = 20 := by
    have h : (100 : ℝ) / (envCfgCex.height / 20) = ((20 : ℤ) : ℝ) := by
      norm_num [envCfgCex]
    rw [h, Int.floor_intCast]
  have hip : getInterpolatedEnvironmentPoint envCfgCex 0 100 =
      generateBaseEnvironmentPoint envCfgCex
        (((0 : ℤ) : ℝ) * (envCfgCex.width / 20))
        (((20 : ℤ) : ℝ) * (envCfgCex.height / 20)) := by
    simp only [getInterpolatedEnvironmentPoint]
    rw [hgx, hgy]
    simp only [environmentState]
    rw [if_pos (by norm_num : (0 : ℤ) ≤ 0 ∧ (0 : ℤ) ≤ 20 ∧ (0 : ℤ) ≤ 20 ∧ (20 : ℤ) ≤ 20)]
  have hbase : (generateBaseEnvironmentPoint envCfgCex
      (((0 : ℤ) : ℝ) * (envCfgCex.width / 20))
      (((20 : ℤ) : ℝ) * (envCfgCex.height / 20))).pressure = 6999 / 1000 := by
    norm_num [generateBaseEnvironmentPoint, envCfgCex, lerpR, clampR, min_def, max_def]
  have hsin : Real.sin (((25 : ℕ) : ℝ) * 0.01 * 2 * Real.pi) = 1 := by
    have harg : ((25 : ℕ) : ℝ) * 0.01 * 2 * Real.pi = Real.pi / 2 := by
      push_cast
      ring
    rw [harg, Real.sin_pi_div_two]
  have hcos : 0 ≤ Real.cos (((25 : ℕ) : ℝ) * 0.01 * 0.1 * Real.pi) := by
    have harg : ((25 : ℕ) : ℝ) * 0.01 * 0.1 * Real.pi = Real.pi / 40 := by
      push_cast
      ring
    rw [harg]
    apply Real.cos_nonneg_of_mem_Icc
    refine Set.mem_Icc.mpr ⟨?_, ?_⟩
    · linarith [Real.pi_pos]
    · linarith [Real.pi_pos]
  have htv : (15 : ℝ) / 100 ≤ (getTemporalVariation envCfgCex 0 100 25).pressure := by
    have he : (getTemporalVariation envCfgCex 0 100 25).pressure =
        ((envCfgCex.maxPressure - envCfgCex.minPressure) * 0.03) *
          ((Real.sin (((25 : ℕ) : ℝ) * 0.01 * 2 * Real.pi) * 0.5) * 1.5 +
           (Real.cos (((25 : ℕ) : ℝ) * 0.01 * 0.1 * Real.pi) * 0.3) * 0.5) := rfl
    rw [he, hsin, hminP, hmaxP]
    linarith [hcos]
  have hns : |(getNoise envCfgCex 0 100 25).pressure| ≤ 4 / 100 := by
    have h := getNoise_pressure_abs_le envCfgCex 0 100 25
    have habs : |(envCfgCex.maxPressure - envCfgCex.minPressure) * 0.01| =
        6999 / 100000 := by
      rw [abs_of_nonneg (by norm_num [envCfgCex] :
        (0 : ℝ) ≤ (envCfgCex.maxPressure - envCfgCex.minPressure) * 0.01)]
      norm_num [envCfgCex]
    rw [habs] at h
    linarith
  have hraw : (getSensorDataRaw envCfgCex 0 100 25).pressure = 6999 / 1000 := by
    have he : (getSensorDataRaw envCfgCex 0 100 25).pressure =
        clampR ((getInterpolatedEnvironmentPoint envCfgCex 0 100).pressure +
          (getTemporalVariation envCfgCex 0 100 25).pressure +
          (getNoise envCfgCex 0 100 25).pressure) envCfgCex.minPressure
          envCfgCex.maxPressure := rfl
    rw [he, hip, hbase, hminP, hmaxP]
    obtain ⟨hna, hnb⟩ := abs_le.mp hns
    unfold clampR
    rw [min_eq_left (by linarith)]
    rw [max_eq_right (by norm_num)]
  have hround : round2 ((6999 : ℝ) / 1000) = 7 := by
    unfold round2
    have h1 : ((6999 : ℝ) / 1000) * 100 = 6999 / 10 := by norm_num
    rw [h1, round_eq]
    have h2 : ((6999 : ℝ) / 10 + 1 / 2) = 7004 / 10 := by norm_num
    rw [h2]
    have h3 : (⌊(7004 : ℝ) / 10⌋ : ℤ) = 700 := by
      apply Int.floor_eq_iff.mpr
      constructor
      · norm_num
      · norm_num
    rw [h3]
    norm_num
  constructor
  · show round2 ((getSensorDataRaw envCfgCex 0 100 25).pressure) = 7
    rw [hraw, hround]
  · show envCfgCex.maxPressure <
      round2 ((getSensorDataRaw envCfgCex 0 100 25).pressure)
    rw [hraw, hround, hmaxP]
    norm_num

/-- C6 amended: whenever each configured [min, max] bound pair is ordered
and both endpoints are integer numbers of hundredths (as in the shipped
default configuration, whose bounds are integers), every field of the
returned reading lies within its configured range: clamping puts the raw
value in range and hundredth-rounding then stays within the
hundredth-aligned endpoints. -/
theorem C6_amended_in_range (cfg : EnvConfig) (x y : ℝ) (rnd : ℕ)
    (hs : cfg.minSalinity ≤ cfg.maxSalinity)
    (hs1 : ∃ n : ℤ, cfg.minSalinity = (n : ℝ) / 100)
    (hs2 : ∃ n : ℤ, cfg.maxSalinity = (n : ℝ) / 100)
    (hp : cfg.minPressure ≤ cfg.maxPressure)
    (hp1 : ∃ n : ℤ, cfg.minPressure = (n : ℝ) / 100)
    (hp2 : ∃ n : ℤ, cfg.maxPressure = (n : ℝ) / 100)
    (ht : cfg.minTemperature ≤ cfg.maxTemperature)
    (ht1 : ∃ n : ℤ, cfg.minTemperature = (n : ℝ) / 100)
    (ht2 : ∃ n : ℤ, cfg.maxTemperature = (n : ℝ) / 100)
    (hh : cfg.minPH ≤ cfg.maxPH)
    (hh1 : ∃ n : ℤ, cfg.minPH = (n : ℝ) / 100)
    (hh2 : ∃ n : ℤ, cfg.maxPH = (n : ℝ) / 100) :
    (cfg.minSalinity ≤ (envGetSensorData cfg x y rnd).salinity ∧
      (envGetSensorData cfg x y rnd).salinity ≤ cfg.maxSalinity) ∧
    (cfg.minPressure ≤ (envGetSensorData cfg x y rnd).pressure ∧
      (envGetSensorData cfg x y rnd).pressure ≤ cfg.maxPressure) ∧
    (cfg.minTemperature ≤ (envGetSensorData cfg x y rnd).temperature ∧
      (envGetSensorData cfg x y rnd).temperature ≤ cfg.maxTemperature) ∧
    (cfg.minPH ≤ (envGetSensorData cfg x y rnd).ph ∧
      (envGetSensorData cfg x y rnd).ph ≤ cfg.maxPH) :=
  ⟨round2_clamp_mem _ hs hs1 hs2, round2_clamp_mem _ hp hp1 hp2,
   round2_clamp_mem _ ht ht1 ht2, round2_clamp_mem _ hh hh1 hh2⟩

/-- Witness for the amended C6 at the shipped default ranges. -/
theorem C6_amended_in_range_witness :
    (envCfgW.minSalinity ≤ envCfgW.maxSalinity ∧
      envCfgW.minPressure ≤ envCfgW.maxPressure ∧
      envCfgW.minTemperature ≤ envCfgW.maxTemperature ∧
      envCfgW.minPH ≤ envCfgW.maxPH) ∧
    ((envCfgW.minSalinity ≤ (envGetSensorData envCfgW 0 0 0).salinity ∧
        (envGetSensorData envCfgW 0 0 0).salinity ≤ envCfgW.maxSalinity) ∧
      (envCfgW.minPressure ≤ (envGetSensorData envCfgW 0 0 0).pressure ∧
        (envGetSensorData envCfgW 0 0 0).pressure ≤ envCfgW.maxPressure) ∧
      (envCfgW.minTemperature ≤ (envGetSensorData envCfgW 0 0 0).temperature ∧
        (envGetSensorData envCfgW 0 0 0).temperature ≤ envCfgW.maxTemperature) ∧
      (envCfgW.minPH ≤ (envGetSensorData envCfgW 0 0 0).ph ∧
        (envGetSensorData envCfgW 0 0 0).ph ≤ envCfgW.maxPH)) :=
  ⟨⟨by norm_num [envCfgW], by norm_num [envCfgW], by norm_num [envCfgW],
    by norm_num [envCfgW]⟩,
   C6_amended_in_range envCfgW 0 0 0
     (by norm_num [envCfgW]) ⟨3000, by norm_num [envCfgW]⟩
     ⟨4000, by norm_num [envCfgW]⟩
     (by norm_num [envCfgW]) ⟨100000, by norm_num [envCfgW]⟩
     ⟨150000, by norm_num [envCfgW]⟩
     (by norm_num [envCfgW]) ⟨1500, by norm_num [envCfgW]⟩
     ⟨3500, by norm_num [envCfgW]⟩
     (by norm_num [envCfgW]) ⟨700, by norm_num [envCfgW]⟩
     ⟨900, by norm_num [envCfgW]⟩⟩

end WSN
